import Mathlib

/-! Robin-Camp movie catalogue: data-access layer

A shallow embedding of `internal/types.go`, `internal/db.go`,
`internal/boxoffice/types.go` and `internal/handler.go`.

* Go `string` is `String`, `int64` is `Int` (the code never does arithmetic on
  these values), Go `int` is `Int` with an explicit 64-bit wrap where the code
  adds, `*T` is `Option T`, a `float64` is the rational it denotes and a
  `float64` operation that rounds is `fl64` of the exact result.
* The SQLite database is a value of type `DB`: three tables, each a list of
  rows typed after the `CREATE TABLE` statements of `migrationStatements`.
* Every SQL statement of the source is a function on `DB` that follows SQLite's
  semantics for that statement (conflict clauses, constraints, join, ordering).
* A `database/sql` call can fail for reasons outside the program (I/O, a
  cancelled context); `Faults` says which calls of one request do so.
-/

namespace RobinCamp

/-! ## Go types (`internal/types.go`, `internal/boxoffice/types.go`) -/

/-- Go `internal.Revenue`. -/
structure Revenue where
  Worldwide : Int
  OpeningWeekendUsa : Option Int
deriving DecidableEq, Repr

/-- Go `internal.BoxOffice`. -/
structure BoxOffice where
  Revenue : Revenue
  Currency : String
  Source : String
  LastUpdated : String
deriving DecidableEq, Repr

/-- Go `internal.Movie`. -/
structure Movie where
  ID : String
  Title : String
  ReleaseDate : String
  Genre : String
  Distributor : Option String
  Budget : Option Int
  MpaRating : Option String
  BoxOffice : Option BoxOffice
deriving DecidableEq, Repr

/-- Go `internal.MovieCreate`. -/
structure MovieCreate where
  Title : String
  Genre : String
  ReleaseDate : String
  Distributor : Option String
  Budget : Option Int
  MpaRating : Option String
deriving DecidableEq, Repr

/-- Go `internal.RatingResult`. -/
structure RatingResult where
  MovieTitle : String
  RaterID : String
  Rating : ℚ
deriving DecidableEq

/-- Go `internal.RatingAggregate`; `Average` is the rational the `float64` denotes. -/
structure RatingAggregate where
  Average : ℚ
  Count : Int
deriving DecidableEq

/-- Go `boxoffice.Revenue`: both figures are optional upstream. -/
structure UpstreamRevenue where
  Worldwide : Option Int
  OpeningWeekendUSA : Option Int
deriving DecidableEq, Repr

/-- Go `boxoffice.BoxOffice`, the upstream payload. -/
structure UpstreamBoxOffice where
  Title : String
  Distributor : String
  ReleaseDate : String
  Budget : Option Int
  Revenue : UpstreamRevenue
  MpaRating : String
  Currency : String
  Source : String
  LastUpdated : String
deriving DecidableEq, Repr

/-! ## The store (`migrationStatements` in `internal/db.go`) -/

/-- A row of table `movies`. -/
structure MovieRow where
  id : String
  title : String
  release_date : String
  genre : String
  distributor : Option String
  budget : Option Int
  mpa_rating : Option String
  created_at : String
  updated_at : String
deriving DecidableEq, Repr

/-- A row of table `box_office`; only `revenue_opening_weekend_usa` is nullable. -/
structure BoxOfficeRow where
  movie_id : String
  currency : String
  source : String
  last_updated : String
  revenue_worldwide : Int
  revenue_opening_weekend_usa : Option Int
deriving DecidableEq, Repr

/-- A row of table `ratings`. -/
structure RatingRow where
  movie_id : String
  rater_id : String
  rating : ℚ
  updated_at : String
deriving DecidableEq

/-- The database: the three tables, rows in insertion order. -/
structure DB where
  movies : List MovieRow
  box_office : List BoxOfficeRow
  ratings : List RatingRow
deriving DecidableEq

/-- The constraints the schema enforces on every committed state: primary keys,
the `UNIQUE` title, the foreign keys of the two dependent tables (with
`PRAGMA foreign_keys = ON`) and the `CHECK` on `rating`. -/
def WellFormed (db : DB) : Prop :=
  (db.movies.map (·.id)).Nodup ∧
  (db.movies.map (·.title)).Nodup ∧
  (db.box_office.map (·.movie_id)).Nodup ∧
  (∀ b ∈ db.box_office, b.movie_id ∈ db.movies.map (·.id)) ∧
  (db.ratings.map (fun r => (r.movie_id, r.rater_id))).Nodup ∧
  (∀ r ∈ db.ratings, r.movie_id ∈ db.movies.map (·.id)) ∧
  (∀ r ∈ db.ratings, 1 / 2 ≤ r.rating ∧ r.rating ≤ 5)

/-- What SQLite reports when a statement fails. -/
inductive SqlError where
  | notNull
  | check
  | foreignKey
  | driver
deriving DecidableEq, Repr

/-- The errors of the data-access layer, one constructor per `fmt.Errorf` wrapper
or unwrapped `database/sql` error of the source; `sliceBounds` is the run-time
panic of `res[:limit]` with a negative bound. -/
inductive DbError where
  | beginTx
  | insertMovie (e : SqlError)
  | upsertBoxOffice (e : SqlError)
  | upsertRating (e : SqlError)
  | commitTx
  | query
  | sliceBounds
deriving DecidableEq, Repr

/-- Equality of `Except` values is decidable, so that results can be compared by evaluation. -/
instance instDecidableEqExcept {ε α : Type} [DecidableEq ε] [DecidableEq α] :
    DecidableEq (Except ε α)
  | .ok a, .ok b =>
    if h : a = b then isTrue (by rw [h]) else isFalse (by intro hc; cases hc; exact h rfl)
  | .error a, .error b =>
    if h : a = b then isTrue (by rw [h]) else isFalse (by intro hc; cases hc; exact h rfl)
  | .ok _, .error _ => isFalse (by intro hc; cases hc)
  | .error _, .ok _ => isFalse (by intro hc; cases hc)

/-- Which `database/sql` calls of one request fail for a reason outside the
program. `stmt1`, `stmt2` are the first and second `ExecContext` of the
transaction, `query1`, `query2` the first and second query of the handler. -/
structure Faults where
  beginTx : Bool
  stmt1 : Bool
  stmt2 : Bool
  commitTx : Bool
  query1 : Bool
  query2 : Bool
deriving DecidableEq, Repr

/-- No call fails for an outside reason. -/
def noFaults : Faults := ⟨false, false, false, false, false, false⟩

/-! ## SQL text comparison and `LIKE` -/

/-- Ordering of two texts under SQLite's `BINARY` collation (`memcmp` of the
UTF-8 encodings, which orders as the code points do). -/
def binaryLt : List Char → List Char → Bool
  | _, [] => false
  | [], _ :: _ => true
  | a :: as, b :: bs => decide (a.toNat < b.toNat) || (a.toNat == b.toNat && binaryLt as bs)

/-- SQL `a < b` on `TEXT`. -/
def textLt (a b : String) : Bool := binaryLt a.data b.data

/-- SQL `a <= b` on `TEXT`, the order of `ORDER BY`. -/
def textLe (a b : String) : Bool := !textLt b a

/-- SQLite folds case in `LIKE` for ASCII letters only. -/
def likeFold (c : Char) : Char :=
  if 'A'.toNat ≤ c.toNat ∧ c.toNat ≤ 'Z'.toNat then Char.ofNat (c.toNat + 32) else c

/-- Does some suffix of the text satisfy `f`? (the expansion of `%`). -/
def anySuffix (f : List Char → Bool) : List Char → Bool
  | [] => f []
  | c :: s => f (c :: s) || anySuffix f s

/-- What a C function of SQLite reads of a text: the characters before the
first U+0000. -/
def cString (s : List Char) : List Char := s.takeWhile fun c => c ≠ Char.ofNat 0

/-- SQLite `patternCompare` for `LIKE` without `ESCAPE`, on the pattern and the
text as it reads them: `%` is any run of characters, `_` is one character,
anything else matches itself up to ASCII case. -/
def patternCompare : List Char → List Char → Bool
  | [], s => s.isEmpty
  | p :: ps, s =>
    if p = '%' then anySuffix (patternCompare ps) s
    else match s with
      | [] => false
      | c :: t => (p = '_' || likeFold p = likeFold c) && patternCompare ps t

/-- SQLite `text LIKE pattern` without `ESCAPE` as a condition of a `WHERE`
clause. Pattern and text are read as C strings, up to their first U+0000. A
pattern of more than 50000 bytes (the default `SQLITE_MAX_LIKE_PATTERN_LENGTH`,
counted on the whole bound value) is refused: the function raises an error and
the statement fails, so no row is selected through such a pattern. -/
def sqlLike (pattern text : List Char) : Bool :=
  decide ((pattern.flatMap String.utf8EncodeChar).length ≤ 50000) &&
    patternCompare (cString pattern) (cString text)

/-- SQL `substr(s, 1, n)` on a text: the first `n` characters of what SQLite
reads of it, which ends at the first U+0000. -/
def substr1 (s : String) (n : Nat) : String := String.mk ((cString s.data).take n)

/-- The bytes of a Go string (its UTF-8 encoding): `len` and indexing count bytes. -/
def goBytes (s : String) : List UInt8 := s.data.flatMap String.utf8EncodeChar

/-! ## The listing query of `listMoviesFromDB` -/

/-- One row of `SELECT m.id, ..., b.revenue_opening_weekend_usa FROM movies m
LEFT JOIN box_office b ON m.id = b.movie_id`; the five `b.` columns are null
when the movie has no `box_office` row. -/
structure JoinedRow where
  id : String
  title : String
  release_date : String
  genre : String
  distributor : Option String
  budget : Option Int
  mpa_rating : Option String
  currency : Option String
  source : Option String
  last_updated : Option String
  revenue_worldwide : Option Int
  revenue_opening_weekend_usa : Option Int
deriving DecidableEq, Repr

/-- The joined row of a movie and its `box_office` row, if any. -/
def joinRow (m : MovieRow) : Option BoxOfficeRow → JoinedRow
  | none =>
    ⟨m.id, m.title, m.release_date, m.genre, m.distributor, m.budget, m.mpa_rating,
      none, none, none, none, none⟩
  | some b =>
    ⟨m.id, m.title, m.release_date, m.genre, m.distributor, m.budget, m.mpa_rating,
      some b.currency, some b.source, some b.last_updated, some b.revenue_worldwide,
      b.revenue_opening_weekend_usa⟩

/-- `movies m LEFT JOIN box_office b ON m.id = b.movie_id`. -/
def leftJoin (db : DB) : List JoinedRow :=
  db.movies.flatMap fun m =>
    match db.box_office.filter (fun b => b.movie_id = m.id) with
    | [] => [joinRow m none]
    | bs => bs.map fun b => joinRow m (some b)

/-- The `where` slice of `listMoviesFromDB`: one condition per non-empty
argument, in the order the code appends them. -/
def whereClauses (q year genre cursor : String) : List (JoinedRow → Bool) :=
  (if q ≠ "" then [fun r => sqlLike ("%" ++ q ++ "%").data r.title.data] else []) ++
  (if year ≠ "" then [fun r => decide (substr1 r.release_date 4 = year)] else []) ++
  (if genre ≠ "" then [fun r => decide (r.genre = genre)] else []) ++
  (if cursor ≠ "" then [fun r => textLt cursor r.id] else [])

/-- The rows of the listing query before `LIMIT`: the join, restricted by the
conditions joined with `AND`, in `ORDER BY m.id` order. -/
def matchingRows (db : DB) (q year genre cursor : String) : List JoinedRow :=
  ((leftJoin db).filter fun r => (whereClauses q year genre cursor).all fun c => c r).insertionSort
    fun a b => textLe a.id b.id = true

/-- SQLite `LIMIT n`: a negative `n` means no limit. -/
def sqlLimit {α : Type} (n : Int) (rows : List α) : List α :=
  if n < 0 then rows else rows.take n.toNat

/-- Go `int` arithmetic wraps at 64 bits. -/
def wrap64 (x : Int) : Int := (x + 2 ^ 63) % 2 ^ 64 - 2 ^ 63

/-- The body of the `rows.Next()` loop of `listMoviesFromDB`: scan one row into
a `Movie`, populating `BoxOffice` when any enrichment column is non-null. -/
def scanRow (r : JoinedRow) : Movie :=
  { ID := r.id, Title := r.title, ReleaseDate := r.release_date, Genre := r.genre,
    Distributor := r.distributor, Budget := r.budget, MpaRating := r.mpa_rating,
    BoxOffice :=
      if r.currency.isSome || r.source.isSome || r.last_updated.isSome ||
          r.revenue_worldwide.isSome || r.revenue_opening_weekend_usa.isSome then
        some
          { Revenue :=
              { Worldwide := match r.revenue_worldwide with
                  | some w => w
                  | none => 0
                OpeningWeekendUsa := r.revenue_opening_weekend_usa }
            Currency := match r.currency with
              | some c => c
              | none => ""
            Source := match r.source with
              | some c => c
              | none => ""
            LastUpdated := match r.last_updated with
              | some c => c
              | none => "" }
      else none }

/-- The state of the scan loop after the given rows: `res` and `lastID`. -/
def scanLoop (rows : List JoinedRow) : List Movie × String :=
  rows.foldl (fun acc r => (acc.1 ++ [scanRow r], (scanRow r).ID)) ([], "")

/-- Go `listMoviesFromDB`: the page and `nextCursor`. `fl.query1` says whether
the query fails, through the driver or because SQLite raises an error while it
runs the statement (here: a refused `LIKE` pattern, evaluated on a row). -/
def listMoviesFromDB (db : DB) (fl : Faults) (q year genre : String) (limit : Int)
    (cursor : String) : Except DbError (List Movie × Option String) :=
  if fl.query1 then .error .query
  else
    let rows := sqlLimit (wrap64 (limit + 1)) (matchingRows db q year genre cursor)
    let res := (scanLoop rows).1
    let lastID := (scanLoop rows).2
    if (res.length : Int) > limit then
      if limit < 0 then .error .sliceBounds
      else .ok (res.take limit.toNat, some lastID)
    else .ok (res, none)

/-- A client that follows `nextCursor` from the given cursor until it is nil,
concatenating the pages; `fuel` bounds the number of requests. -/
def collectPages (db : DB) (q year genre : String) (limit : Int) :
    Nat → String → Option (List Movie)
  | 0, _ => none
  | fuel + 1, cursor =>
    match listMoviesFromDB db noFaults q year genre limit cursor with
    | .error _ => none
    | .ok (page, none) => some page
    | .ok (page, some next) =>
      match collectPages db q year genre limit fuel next with
      | none => none
      | some rest => some (page ++ rest)

/-! ## Transactions (`WithTx` in `internal/db.go`) -/

/-- An open `*sql.Tx`: the committed state it started from, which the rest of
the system keeps seeing, and the uncommitted state its statements act on. -/
structure Tx where
  base : DB
  cur : DB
deriving DecidableEq

/-- Go `db.BeginTx`. -/
def BeginTx (db : DB) (fl : Faults) : Except DbError Tx :=
  if fl.beginTx then .error .beginTx else .ok ⟨db, db⟩

/-- Go `tx.ExecContext` for one statement: a failing statement changes nothing
(SQLite undoes it) and leaves the transaction open. -/
def Tx.ExecContext (tx : Tx) (fault : Bool) (stmt : DB → Except SqlError DB) :
    Tx × Option SqlError :=
  if fault then (tx, some .driver)
  else
    match stmt tx.cur with
    | .ok d => ({ tx with cur := d }, none)
    | .error e => (tx, some e)

/-- Go `tx.Rollback`: the committed state stays what it was. -/
def Tx.Rollback (tx : Tx) : DB := tx.base

/-- Go `tx.Commit`: the uncommitted state becomes the committed one, unless the
commit itself fails. -/
def Tx.Commit (tx : Tx) (fl : Faults) : DB × Option DbError :=
  if fl.commitTx then (tx.base, some .commitTx) else (tx.cur, none)

/-- Go `WithTx`: run `fn` in a transaction, roll back when it returns an error,
commit otherwise. Returns the committed state afterwards and the error. -/
def WithTx (db : DB) (fl : Faults) (fn : Tx → Tx × Option DbError) : DB × Option DbError :=
  match BeginTx db fl with
  | .error e => (db, some e)
  | .ok tx =>
    match fn tx with
    | (tx1, some err) => (tx1.Rollback, some err)
    | (tx1, none) => tx1.Commit fl

/-! ## The write statements of `internal/handler.go` -/

/-- SQL `INSERT OR IGNORE INTO movies (...) VALUES (...)`: the row is skipped
without error when its primary key or its unique title is already present. -/
def insertOrIgnoreMovie (row : MovieRow) (db : DB) : Except SqlError DB :=
  if db.movies.any (fun r => r.id = row.id || r.title = row.title) then .ok db
  else .ok { db with movies := db.movies ++ [row] }

/-- SQL `INSERT OR REPLACE INTO box_office (...) VALUES (...)`: a row with the
same primary key is replaced; the foreign key to `movies(id)` is not subject
to the conflict clause and fails the statement. -/
def insertOrReplaceBoxOffice (row : BoxOfficeRow) (db : DB) : Except SqlError DB :=
  if db.movies.any (fun m => m.id = row.movie_id) then
    .ok { db with
      box_office := db.box_office.filter (fun b => b.movie_id ≠ row.movie_id) ++ [row] }
  else .error .foreignKey

/-- SQL `SELECT id FROM movies WHERE title = ?` read as one value. -/
def selectMovieIdByTitle (db : DB) (title : String) : Option String :=
  (db.movies.find? fun m => m.title = title).map (·.id)

/-- SQL `INSERT INTO ratings (...) VALUES ((SELECT id FROM movies WHERE title = ?), ?, ?, now)
ON CONFLICT(movie_id, rater_id) DO UPDATE SET rating = excluded.rating,
updated_at = excluded.updated_at`. -/
def insertRatingOnConflictUpdate (title raterID : String) (rating : ℚ) (now : String)
    (db : DB) : Except SqlError DB :=
  match selectMovieIdByTitle db title with
  | none => .error .notNull
  | some movieID =>
    if rating < 1 / 2 ∨ rating > 5 then .error .check
    else if db.ratings.any (fun r => r.movie_id = movieID && r.rater_id = raterID) then
      .ok { db with
        ratings := db.ratings.map fun r =>
          if r.movie_id = movieID ∧ r.rater_id = raterID then
            { r with rating := rating, updated_at := now }
          else r }
    else .ok { db with ratings := db.ratings ++ [⟨movieID, raterID, rating, now⟩] }

/-- Go `valueOrZero`. -/
def valueOrZero (v : Option Int) : Int :=
  match v with
  | none => 0
  | some x => x

/-- Go `upsertMovie`; `now` is SQLite's clock. The two revenue parameters are
bound as `int64` values, the results of `valueOrZero`. -/
def upsertMovie (tx : Tx) (m : Movie) (now : String) (fl : Faults) : Tx × Option DbError :=
  match tx.ExecContext fl.stmt1
      (insertOrIgnoreMovie
        ⟨m.ID, m.Title, m.ReleaseDate, m.Genre, m.Distributor, m.Budget, m.MpaRating, now, now⟩) with
  | (tx1, some err) => (tx1, some (.insertMovie err))
  | (tx1, none) =>
    match m.BoxOffice with
    | some bo =>
      let worldwidePtr : Option Int :=
        if bo.Revenue.Worldwide ≠ 0 then some bo.Revenue.Worldwide else none
      match tx1.ExecContext fl.stmt2
          (insertOrReplaceBoxOffice
            ⟨m.ID, bo.Currency, bo.Source, bo.LastUpdated, valueOrZero worldwidePtr,
              some (valueOrZero bo.Revenue.OpeningWeekendUsa)⟩) with
      | (tx2, some err) => (tx2, some (.upsertBoxOffice err))
      | (tx2, none) => (tx2, none)
    | none => (tx1, none)

/-- Go `upsertRating`. -/
def upsertRating (tx : Tx) (r : RatingResult) (now : String) (fl : Faults) :
    Tx × Option DbError :=
  match tx.ExecContext fl.stmt1 (insertRatingOnConflictUpdate r.MovieTitle r.RaterID r.Rating now) with
  | (tx1, some err) => (tx1, some (.upsertRating err))
  | (tx1, none) => (tx1, none)

/-! ## Handlers -/

/-- Go `unicode.IsSpace`. -/
def isSpace (c : Char) : Bool :=
  c.toNat ∈ [0x09, 0x0A, 0x0B, 0x0C, 0x0D, 0x20, 0x85, 0xA0, 0x1680, 0x2028, 0x2029, 0x202F,
    0x205F, 0x3000] || (0x2000 ≤ c.toNat && c.toNat ≤ 0x200A)

/-- Go `strings.TrimSpace`. -/
def TrimSpace (s : String) : String :=
  String.mk ((s.data.dropWhile isSpace).reverse.dropWhile isSpace).reverse

/-- What `errors.Is(err, boxoffice.ErrNotFound)` tells about a client error. -/
inductive ClientError where
  | notFound
  | other
deriving DecidableEq, Repr

/-- Go `BoxOfficeClient.GetMovieBoxOffice`: the pair `(*boxoffice.BoxOffice, error)`
returned for a title. -/
abbrev BoxOfficeClient := String → Option UpstreamBoxOffice × Option ClientError

/-- The JSON body of a response. -/
inductive Body where
  | error (code message : String)
  | internal (err : DbError)
  | movie (m : Movie)
  | rating (r : RatingResult)
  | aggregate (a : RatingAggregate)
deriving DecidableEq

/-- What a handler writes: status code, body and `Location` header. -/
structure Response where
  status : Nat
  body : Body
  location : Option String
deriving DecidableEq

/-- The value of the local `box` of `createMovie` after the upstream call. -/
def createMovie.box (boxClient : Option BoxOfficeClient) (title : String) : Option BoxOffice :=
  match boxClient with
  | none => none
  | some client =>
    let bo : Option UpstreamBoxOffice :=
      if (client title).2 ≠ none ∧ (client title).2 ≠ some .notFound then none
      else (client title).1
    match bo with
    | none => none
    | some bo =>
      some
        { Revenue :=
            { Worldwide := match bo.Revenue.Worldwide with
                | some w => w
                | none => 0
              OpeningWeekendUsa := bo.Revenue.OpeningWeekendUSA }
          Currency := bo.Currency
          Source := bo.Source
          LastUpdated := bo.LastUpdated }

/-- The value of the local `movie` of `createMovie`; `id` is the result of `Now()`. -/
def createMovie.movie (boxClient : Option BoxOfficeClient) (payload : MovieCreate)
    (id : String) : Movie :=
  { ID := id, Title := payload.Title, ReleaseDate := payload.ReleaseDate, Genre := payload.Genre,
    Distributor := payload.Distributor, Budget := payload.Budget, MpaRating := payload.MpaRating,
    BoxOffice := createMovie.box boxClient payload.Title }

/-- The two input checks of `createMovie` both pass. -/
def createMovie.valid (payload : MovieCreate) : Bool :=
  !(TrimSpace payload.Title = "" || TrimSpace payload.Genre = "" ||
      TrimSpace payload.ReleaseDate = "") &&
    !((goBytes payload.ReleaseDate).length ≠ 10 || (goBytes payload.ReleaseDate)[4]? ≠ some 45 ||
      (goBytes payload.ReleaseDate)[7]? ≠ some 45)

/-- Go `Handler.createMovie` after the body is bound: the store afterwards and
the response. `id` is the result of `Now()`, `now` SQLite's clock. -/
def createMovie (db : DB) (boxClient : Option BoxOfficeClient) (payload : MovieCreate)
    (id now : String) (fl : Faults) : DB × Response :=
  if TrimSpace payload.Title = "" ∨ TrimSpace payload.Genre = "" ∨
      TrimSpace payload.ReleaseDate = "" then
    (db, ⟨422, .error "BAD_REQUEST" "title, genre and releaseDate are required", none⟩)
  else if (goBytes payload.ReleaseDate).length ≠ 10 ∨ (goBytes payload.ReleaseDate)[4]? ≠ some 45 ∨
      (goBytes payload.ReleaseDate)[7]? ≠ some 45 then
    (db, ⟨422, .error "BAD_REQUEST" "invalid releaseDate format", none⟩)
  else
    let movie := createMovie.movie boxClient payload id
    match WithTx db fl fun tx => upsertMovie tx movie now fl with
    | (db1, some err) => (db1, ⟨500, .internal err, none⟩)
    | (db1, none) => (db1, ⟨201, .movie movie, some ("/movies/" ++ payload.Title)⟩)

/-- Go `math.Mod(x, y)` on finite values with `y` non-zero: the exact remainder
of the division truncated toward zero. -/
def mathMod (x y : ℚ) : ℚ := x - y * ((x / y).num.tdiv (x / y).den : Int)

/-- Go `Handler.submitRating` after the body is bound; `rating` is
`payload.Rating`, `raterID` the `X-Rater-Id` header. -/
def submitRating (db : DB) (title raterID : String) (rating : ℚ) (now : String)
    (fl : Faults) : DB × Response :=
  if (goBytes title).length = 0 then (db, ⟨400, .error "BAD_REQUEST" "missing title", none⟩)
  else
    let normalizedTitle := TrimSpace title
    if raterID = "" then
      (db, ⟨401, .error "UNAUTHORIZED" "Missing or invalid authentication信息", none⟩)
    else if rating < 1 / 2 ∨ rating > 5 ∨ mathMod (rating * 2) 1 ≠ 0 then
      (db, ⟨422, .error "BAD_REQUEST" "rating out of range", none⟩)
    else if fl.query1 then (db, ⟨500, .internal .query, none⟩)
    else
      match selectMovieIdByTitle db normalizedTitle with
      | none => (db, ⟨404, .error "NOT_FOUND" "movie not found", none⟩)
      | some movieID =>
        if fl.query2 then (db, ⟨500, .internal .query, none⟩)
        else
          let existingCount :=
            (db.ratings.filter fun r => r.movie_id = movieID ∧ r.rater_id = raterID).length
          let statusCode := if existingCount > 0 then 200 else 201
          match WithTx db fl fun tx =>
              upsertRating tx ⟨normalizedTitle, raterID, rating⟩ now fl with
          | (db1, some err) => (db1, ⟨500, .internal err, none⟩)
          | (db1, none) =>
            (db1, ⟨statusCode, .rating ⟨normalizedTitle, raterID, rating⟩,
              if statusCode = 201 then
                some ("/movies/" ++ normalizedTitle ++ "/ratings/" ++ raterID)
              else none⟩)

/-! ## `float64` arithmetic and the rating aggregate -/

/-- The integer nearest to a rational, a tie going to the even one. -/
def roundHalfEven (q : ℚ) : ℤ :=
  if q - ⌊q⌋ < 1 / 2 then ⌊q⌋
  else if q - ⌊q⌋ > 1 / 2 then ⌊q⌋ + 1
  else if ⌊q⌋ % 2 = 0 then ⌊q⌋ else ⌊q⌋ + 1

/-- The `float64` nearest to a rational (53 significant bits, round to nearest,
ties to even), for values in the normal range of `float64`. The result of a
`float64` operation is `fl64` of the exact result. -/
def fl64 (q : ℚ) : ℚ :=
  if q = 0 then 0
  else (roundHalfEven (q / 2 ^ (Int.log 2 |q| - 52)) : ℚ) * 2 ^ (Int.log 2 |q| - 52)

/-- Go `math.Round`: the nearest integer, halves away from zero (exact on `float64`). -/
def mathRound (x : ℚ) : ℚ :=
  if 0 ≤ x then (⌊x + 1 / 2⌋ : ℤ) else -(⌊-x + 1 / 2⌋ : ℤ)

/-- SQLite `AVG(rating)` over the selected values: NULL when there are none,
otherwise the sum, accumulated in `double`, divided by the count. (SQLite's
compensated summation gives the same sum whenever every partial sum is exact.) -/
def sqlAvg (xs : List ℚ) : Option ℚ :=
  if xs = [] then none
  else some (fl64 (xs.foldl (fun acc x => fl64 (acc + x)) 0 / xs.length))

/-- Go `Handler.getRatingAggregate`: the title is looked up as given. A NULL
average scans as `Float64 = 0`. -/
def getRatingAggregate (db : DB) (title : String) (fl : Faults) : Response :=
  if (goBytes title).length = 0 then ⟨400, .error "BAD_REQUEST" "missing title", none⟩
  else if fl.query1 then ⟨500, .internal .query, none⟩
  else
    match selectMovieIdByTitle db title with
    | none => ⟨404, .error "NOT_FOUND" "movie not found", none⟩
    | some movieID =>
      if fl.query2 then ⟨500, .internal .query, none⟩
      else
        let rows := db.ratings.filter fun r => r.movie_id = movieID
        let avg : ℚ := (sqlAvg (rows.map (·.rating))).getD 0
        let count : Int := rows.length
        if count = 0 then ⟨404, .error "NOT_FOUND" "no ratings", none⟩
        else ⟨200, .aggregate ⟨fl64 (mathRound (fl64 (avg * 10)) / 10), count⟩, none⟩

/-! ## Concrete stores and requests used to run the definitions -/

/-- A `movies` row with the given id and title and fixed other columns. -/
def sampleMovieRow (id title : String) : MovieRow :=
  ⟨id, title, "2020-01-01", "Drama", none, none, none, "t0", "t0"⟩

/-- The movie `listMoviesFromDB` scans from `sampleMovieRow id title` without enrichment. -/
def sampleMovie (id title : String) : Movie :=
  ⟨id, title, "2020-01-01", "Drama", none, none, none, none⟩

/-- A store with three movies, ids `a`, `b`, `c`, and nothing else. -/
def threeMovies : DB :=
  ⟨[sampleMovieRow "a" "Alpha", sampleMovieRow "b" "Beta", sampleMovieRow "c" "Gamma"], [], []⟩

/-- The empty store. -/
def emptyDB : DB := ⟨[], [], []⟩

/-- A store holding one movie, id `a`, title `Alpha`, without enrichment. -/
def oneMovie : DB := ⟨[sampleMovieRow "a" "Alpha"], [], []⟩

/-- A valid candidate with title `Alpha`. -/
def samplePayload : MovieCreate := ⟨"Alpha", "Drama", "2020-01-01", none, none, none⟩

/-- An upstream record whose worldwide figure is 100 and whose opening-weekend
figure is absent. -/
def sampleUpstream : UpstreamBoxOffice :=
  ⟨"Alpha", "Studio", "2020-01-01", none, ⟨some 100, none⟩, "PG", "USD", "upstream", "2021-05-05"⟩

/-- An upstream client that returns `sampleUpstream` for every title. -/
def recordClient : BoxOfficeClient := fun _ => (some sampleUpstream, none)

/-- An upstream client that reports not-found for every title. -/
def notFoundClient : BoxOfficeClient := fun _ => (none, some .notFound)

/-- A movie with enrichment whose opening-weekend revenue is the given optional value. -/
def enrichedMovie (opening : Option Int) : Movie :=
  ⟨"a", "Alpha", "2020-01-01", "Drama", none, none, none,
    some ⟨⟨100, opening⟩, "USD", "upstream", "2021-05-05"⟩⟩

/-- The store after `enrichedMovie` is written into the empty store at time `t1`,
whatever its opening-weekend value among absent and 0. -/
def enrichedStore : DB :=
  ⟨[⟨"a", "Alpha", "2020-01-01", "Drama", none, none, none, "t1", "t1"⟩],
    [⟨"a", "USD", "upstream", "2021-05-05", 100, some 0⟩], []⟩

/-- Only the second statement of the transaction fails for an outside reason. -/
def secondStatementFails : Faults := ⟨false, false, true, false, false, false⟩

/-- An upstream client that returns a record with worldwide 100 and a reported
opening-weekend figure of 7 for every title. -/
def fullClient : BoxOfficeClient := fun _ =>
  (some ⟨"Alpha", "Studio", "2020-01-01", none, ⟨some 100, some 7⟩, "PG", "USD", "upstream",
    "2021-05-05"⟩, none)

/-! ## The writing routes of `RegisterRoutes` -/

/-- A request to one of the two routes that write to the store, `POST /movies`
and `POST /movies/:title/ratings`, with what its handler reads from outside. -/
inductive Request where
  | createMovie (boxClient : Option BoxOfficeClient) (payload : MovieCreate) (id now : String)
      (fl : Faults)
  | submitRating (title raterID : String) (rating : ℚ) (now : String) (fl : Faults)

/-- The store after a writing request is served. -/
def serve (db : DB) : Request → DB
  | .createMovie boxClient payload id now fl => (createMovie db boxClient payload id now fl).1
  | .submitRating title raterID rating now fl => (submitRating db title raterID rating now fl).1

/-- The store after a sequence of writing requests is served in order. -/
def serveAll (db : DB) (reqs : List Request) : DB := reqs.foldl serve db

/-- The id `Now()` assigned in a request, for a `createMovie` request. -/
def Request.assignedId : Request → Option String
  | .createMovie _ _ id _ _ => some id
  | .submitRating _ _ _ _ _ => none

/-- A store with the movie `Alpha` (id `a`) and three ratings for it: 1.0, 2.0 and 2.0. -/
def ratedStore : DB :=
  ⟨[sampleMovieRow "a" "Alpha"], [],
    [⟨"a", "rater-1", 1, "t0"⟩, ⟨"a", "rater-2", 2, "t0"⟩, ⟨"a", "rater-3", 2, "t0"⟩]⟩

/-- `ratedStore` after `rater-1` changes the rating to 3.0 at time `t1`. -/
def ratedStoreAfter : DB :=
  ⟨[sampleMovieRow "a" "Alpha"], [],
    [⟨"a", "rater-1", 3, "t1"⟩, ⟨"a", "rater-2", 2, "t0"⟩, ⟨"a", "rater-3", 2, "t0"⟩]⟩

/-- A candidate whose `releaseDate` has ten characters, hyphens as fifth and
eighth, and a non-ASCII last character: eleven bytes. -/
def elevenBytePayload : MovieCreate := ⟨"Alpha", "Drama", "2020-01-0é", none, none, none⟩

/-- A candidate whose `releaseDate` has nine characters, hyphens as fourth and
seventh, and a non-ASCII first character: ten bytes with hyphens at bytes 5 and 8. -/
def nineCharPayload : MovieCreate := ⟨"Alpha", "Drama", "é20-01-01", none, none, none⟩

/-- A candidate whose `releaseDate` has the required shape and is no calendar date. -/
def noCalendarPayload : MovieCreate := ⟨"Alpha", "Drama", "9999-99-99", none, none, none⟩

/-- A valid candidate whose title has a leading and a trailing blank. -/
def paddedPayload : MovieCreate := ⟨" Alpha ", "Drama", "2020-01-01", none, none, none⟩

/-- The store after `paddedPayload` is created in the empty store with id `a` at time `t1`. -/
def paddedStore : DB :=
  ⟨[⟨"a", " Alpha ", "2020-01-01", "Drama", none, none, none, "t1", "t1"⟩], [], []⟩

/-! # Theorems -/

/-! ## The scan loop and the page cut of `listMoviesFromDB` -/

theorem scanLoop_foldl_fst (rows : List JoinedRow) (acc : List Movie × String) :
    (rows.foldl (fun acc r => (acc.1 ++ [scanRow r], (scanRow r).ID)) acc).1
      = acc.1 ++ rows.map scanRow := by
  induction rows generalizing acc with
  | nil => simp
  | cons r rs ih => simp [List.foldl_cons, ih]

theorem scanLoop_fst (rows : List JoinedRow) : (scanLoop rows).1 = rows.map scanRow := by
  simp [scanLoop, scanLoop_foldl_fst]

theorem scanLoop_foldl_snd (rows : List JoinedRow) (acc : List Movie × String) :
    (rows.foldl (fun acc r => (acc.1 ++ [scanRow r], (scanRow r).ID)) acc).2
      = ((rows.map fun r => r.id).getLast?).getD acc.2 := by
  induction rows generalizing acc with
  | nil => simp
  | cons r rs ih =>
    simp only [List.foldl_cons, ih, List.map_cons]
    cases rs with
    | nil => simp [scanRow]
    | cons r2 rs2 =>
      cases h : (r2.id :: List.map (fun r => r.id) rs2).getLast? with
      | none => simp at h
      | some v => simp [h]

theorem scanLoop_snd (rows : List JoinedRow) :
    (scanLoop rows).2 = ((rows.map fun r => r.id).getLast?).getD "" := by
  simp [scanLoop, scanLoop_foldl_snd]

theorem sqlLimit_wrap_length {α : Type} (rows : List α) (limit : Int) (h1 : 1 ≤ limit)
    (h2 : limit < 2 ^ 63) :
    ((sqlLimit (wrap64 (limit + 1)) rows).length : Int) > limit ↔ (rows.length : Int) > limit := by
  unfold sqlLimit wrap64
  by_cases h : limit + 1 < 2 ^ 63
  · have hw : (limit + 1 + 2 ^ 63) % 2 ^ 64 - 2 ^ 63 = limit + 1 := by omega
    rw [hw, if_neg (by omega)]
    simp only [List.length_take]
    omega
  · have hw : (limit + 1 + 2 ^ 63) % 2 ^ 64 - 2 ^ 63 = - 2 ^ 63 := by omega
    rw [hw, if_pos (by omega)]

theorem sqlLimit_wrap_take {α : Type} (rows : List α) (limit : Int) (h1 : 1 ≤ limit)
    (h2 : limit < 2 ^ 63) :
    (sqlLimit (wrap64 (limit + 1)) rows).take limit.toNat = rows.take limit.toNat := by
  unfold sqlLimit wrap64
  by_cases h : limit + 1 < 2 ^ 63
  · have hw : (limit + 1 + 2 ^ 63) % 2 ^ 64 - 2 ^ 63 = limit + 1 := by omega
    rw [hw, if_neg (by omega), List.take_take]
    congr 1
    omega
  · have hw : (limit + 1 + 2 ^ 63) % 2 ^ 64 - 2 ^ 63 = - 2 ^ 63 := by omega
    rw [hw, if_pos (by omega)]

theorem sqlLimit_wrap_all {α : Type} (rows : List α) (limit : Int) (h1 : 1 ≤ limit)
    (h2 : limit < 2 ^ 63) (h : (rows.length : Int) ≤ limit) :
    sqlLimit (wrap64 (limit + 1)) rows = rows := by
  unfold sqlLimit wrap64
  by_cases h : limit + 1 < 2 ^ 63
  · have hw : (limit + 1 + 2 ^ 63) % 2 ^ 64 - 2 ^ 63 = limit + 1 := by omega
    rw [hw, if_neg (by omega)]
    apply List.take_of_length_le
    omega
  · have hw : (limit + 1 + 2 ^ 63) % 2 ^ 64 - 2 ^ 63 = - 2 ^ 63 := by omega
    rw [hw, if_pos (by omega)]

/-- What `listMoviesFromDB` returns for a positive limit when the query does not
fail, in terms of the rows matching the query. -/
theorem listMoviesFromDB_eq (db : DB) (fl : Faults) (q year genre cursor : String) (limit : Int)
    (h1 : 1 ≤ limit) (h2 : limit < 2 ^ 63) (hq : fl.query1 = false) :
    listMoviesFromDB db fl q year genre limit cursor =
      if ((matchingRows db q year genre cursor).length : Int) > limit then
        .ok (((matchingRows db q year genre cursor).take limit.toNat).map scanRow,
          some (scanLoop (sqlLimit (wrap64 (limit + 1)) (matchingRows db q year genre cursor))).2)
      else .ok ((matchingRows db q year genre cursor).map scanRow, none) := by
  unfold listMoviesFromDB
  simp only [hq, Bool.false_eq_true, if_false, scanLoop_fst, List.length_map]
  by_cases h : ((matchingRows db q year genre cursor).length : Int) > limit
  · rw [if_pos ((sqlLimit_wrap_length _ limit h1 h2).2 h), if_neg (by omega), if_pos h,
      ← List.map_take, sqlLimit_wrap_take _ limit h1 h2]
  · rw [if_neg (fun hc => h ((sqlLimit_wrap_length _ limit h1 h2).1 hc)), if_neg h,
      sqlLimit_wrap_all _ limit h1 h2 (by omega)]

/-- When more rows match than the limit (below the largest `int`), the cursor
`listMoviesFromDB` hands out is the id of the row at index `limit` of the
matching rows: the extra row the page does not contain. -/
theorem listMoviesFromDB_cursor_of_more (db : DB) (fl : Faults) (q year genre cursor : String)
    (limit : Int) (h1 : 1 ≤ limit) (h2 : limit + 1 < 2 ^ 63) (hq : fl.query1 = false)
    (hm : ((matchingRows db q year genre cursor).length : Int) > limit) :
    listMoviesFromDB db fl q year genre limit cursor =
      .ok (((matchingRows db q year genre cursor).take limit.toNat).map scanRow,
        ((matchingRows db q year genre cursor).map fun r => r.id)[limit.toNat]?) := by
  rw [listMoviesFromDB_eq db fl q year genre cursor limit h1 (by omega) hq, if_pos hm, scanLoop_snd]
  have hw : wrap64 (limit + 1) = limit + 1 := by unfold wrap64; omega
  have hlen : limit.toNat < ((matchingRows db q year genre cursor).map fun r => r.id).length := by
    rw [List.length_map]; omega
  have hlim : sqlLimit (limit + 1) (matchingRows db q year genre cursor)
      = (matchingRows db q year genre cursor).take (limit.toNat + 1) := by
    unfold sqlLimit
    rw [if_neg (by omega)]
    congr 1
    omega
  have hmt : List.map (fun r : JoinedRow => r.id)
        ((matchingRows db q year genre cursor).take (limit.toNat + 1))
      = (List.map (fun r : JoinedRow => r.id) (matchingRows db q year genre cursor)).take
          (limit.toNat + 1) := by
    simp [List.map_take]
  rw [hw, hlim, hmt, List.getLast?_take, if_neg (by omega)]
  simp only [Nat.add_sub_cancel]
  rw [List.getElem?_eq_getElem hlen]
  simp

/-- C3: for a limit of at least 1 (a Go `int`) and a query that does not fail,
`listMoviesFromDB` returns a page of at most `limit` movies; `nextCursor` is nil
exactly when at most `limit` rows match the filters and the cursor bound, and
then the page is every matching row, scanned, in query order. -/
theorem listMoviesFromDB_page_bound (db : DB) (fl : Faults) (q year genre cursor : String)
    (limit : Int) (h1 : 1 ≤ limit) (h2 : limit < 2 ^ 63) (hq : fl.query1 = false) :
    ∃ page next, listMoviesFromDB db fl q year genre limit cursor = .ok (page, next) ∧
      (page.length : Int) ≤ limit ∧
      (next = none ↔ ((matchingRows db q year genre cursor).length : Int) ≤ limit) ∧
      (next = none → page = (matchingRows db q year genre cursor).map scanRow) := by
  rw [listMoviesFromDB_eq db fl q year genre cursor limit h1 h2 hq]
  by_cases h : ((matchingRows db q year genre cursor).length : Int) > limit
  · rw [if_pos h]
    refine ⟨_, _, rfl, ?_, ?_, ?_⟩
    · simp only [List.length_map, List.length_take]
      omega
    · simp only [reduceCtorEq, false_iff]
      omega
    · intro hc
      simp at hc
  · rw [if_neg h]
    refine ⟨_, _, rfl, ?_, ?_, ?_⟩
    · simp only [List.length_map]
      omega
    · simp only [true_iff]
      omega
    · intro _
      rfl

/-- Witness for C3 on the three-movie store with limit 2. -/
theorem listMoviesFromDB_page_bound_witness :
    (1 : Int) ≤ 2 ∧ (2 : Int) < 2 ^ 63 ∧ noFaults.query1 = false ∧
    ∃ page next, listMoviesFromDB threeMovies noFaults "" "" "" 2 "" = .ok (page, next) ∧
      (page.length : Int) ≤ 2 ∧
      (next = none ↔ ((matchingRows threeMovies "" "" "" "").length : Int) ≤ 2) ∧
      (next = none → page = (matchingRows threeMovies "" "" "" "").map scanRow) :=
  ⟨by decide, by decide, rfl,
    listMoviesFromDB_page_bound threeMovies noFaults "" "" "" "" 2 (by decide) (by decide) rfl⟩

/-- C2: on the three-movie store with limit 1 the page is the first movie, id
`a`, and the cursor handed out is `b`, the id of the dropped extra row, not the
id of the last row of the page. -/
theorem listMoviesFromDB_cursor_is_dropped_row :
    listMoviesFromDB threeMovies noFaults "" "" "" 1 "" = .ok ([sampleMovie "a" "Alpha"], some "b") ∧
    (matchingRows threeMovies "" "" "" "").map scanRow
      = [sampleMovie "a" "Alpha", sampleMovie "b" "Beta", sampleMovie "c" "Gamma"] := by
  decide

/-- C1: on the three-movie store with limit 1, following `nextCursor` from the
empty cursor until it is nil collects the movies `a` and `c` only: movie `b`,
which matches the (empty) filter, is on no page. -/
theorem collectPages_misses_row :
    collectPages threeMovies "" "" "" 1 3 "" = some [sampleMovie "a" "Alpha", sampleMovie "c" "Gamma"] ∧
    sampleMovie "b" "Beta" ∈ (matchingRows threeMovies "" "" "" "").map scanRow := by
  decide

/-! ## Transactions -/

theorem ExecContext_base (tx : Tx) (fault : Bool) (stmt : DB → Except SqlError DB) :
    (tx.ExecContext fault stmt).1.base = tx.base := by
  unfold Tx.ExecContext
  split
  · rfl
  · split <;> rfl

theorem upsertMovie_base (tx : Tx) (m : Movie) (now : String) (fl : Faults) :
    (upsertMovie tx m now fl).1.base = tx.base := by
  unfold upsertMovie
  split
  · rename_i tx1 err h
    have := ExecContext_base tx fl.stmt1 (insertOrIgnoreMovie
      ⟨m.ID, m.Title, m.ReleaseDate, m.Genre, m.Distributor, m.Budget, m.MpaRating, now, now⟩)
    rw [h] at this
    exact this
  · rename_i tx1 h
    have hb := ExecContext_base tx fl.stmt1 (insertOrIgnoreMovie
      ⟨m.ID, m.Title, m.ReleaseDate, m.Genre, m.Distributor, m.Budget, m.MpaRating, now, now⟩)
    rw [h] at hb
    split
    · rename_i bo _
      simp only
      split
      · rename_i tx2 err h2
        have hb2 := ExecContext_base tx1 fl.stmt2 (insertOrReplaceBoxOffice
          ⟨m.ID, bo.Currency, bo.Source, bo.LastUpdated,
            valueOrZero (if bo.Revenue.Worldwide ≠ 0 then some bo.Revenue.Worldwide else none),
            some (valueOrZero bo.Revenue.OpeningWeekendUsa)⟩)
        rw [h2] at hb2
        exact hb2.trans hb
      · rename_i tx2 h2
        have hb2 := ExecContext_base tx1 fl.stmt2 (insertOrReplaceBoxOffice
          ⟨m.ID, bo.Currency, bo.Source, bo.LastUpdated,
            valueOrZero (if bo.Revenue.Worldwide ≠ 0 then some bo.Revenue.Worldwide else none),
            some (valueOrZero bo.Revenue.OpeningWeekendUsa)⟩)
        rw [h2] at hb2
        exact hb2.trans hb
    · exact hb

/-- A transaction whose body keeps the base and reports an error leaves the
committed state as it was. -/
theorem WithTx_error_unchanged (db : DB) (fl : Faults) (fn : Tx → Tx × Option DbError)
    (hbase : ∀ tx, (fn tx).1.base = tx.base) (h : (fn ⟨db, db⟩).2 ≠ none) :
    ∃ err, WithTx db fl fn = (db, some err) := by
  unfold WithTx BeginTx
  by_cases hb : fl.beginTx = true
  · exact ⟨.beginTx, by simp [hb]⟩
  · simp only [hb, Bool.false_eq_true, if_false]
    have hbs := hbase ⟨db, db⟩
    rcases hfn : fn ⟨db, db⟩ with ⟨tx1, e⟩
    rw [hfn] at h hbs
    cases e with
    | none => exact absurd rfl h
    | some err => exact ⟨err, by simp [Tx.Rollback]; exact hbs⟩

/-! ## Creating a movie -/

/-- C4: creating `Alpha` again when the upstream returns a record reports an
internal failure: the movie insert is ignored, so the enrichment row refers to
an id that is not in `movies` and the foreign key rejects it. The store keeps
its one `Alpha` row. -/
theorem createMovie_duplicate_title_with_record :
    createMovie oneMovie (some recordClient) samplePayload "b" "t1" noFaults
      = (oneMovie, ⟨500, .internal (.upsertBoxOffice .foreignKey), none⟩) := by
  decide

/-- C7: a movie whose opening-weekend revenue is absent (as `createMovie` builds
it from an upstream record without that figure) and one whose opening-weekend
revenue is a reported 0 are written as the same store, with 0 in the column,
and both read back with opening-weekend revenue present and 0. -/
theorem upsertMovie_absent_opening_weekend_reads_zero :
    createMovie emptyDB (some recordClient) samplePayload "a" "t1" noFaults
      = (enrichedStore, ⟨201, .movie (enrichedMovie none), some "/movies/Alpha"⟩) ∧
    WithTx emptyDB noFaults (fun tx => upsertMovie tx (enrichedMovie none) "t1" noFaults)
      = (enrichedStore, none) ∧
    WithTx emptyDB noFaults (fun tx => upsertMovie tx (enrichedMovie (some 0)) "t1" noFaults)
      = (enrichedStore, none) ∧
    listMoviesFromDB enrichedStore noFaults "" "" "" 20 "" = .ok ([enrichedMovie (some 0)], none) := by
  decide

/-- C9: when the upstream returns a record without error, the enrichment of the
movie `createMovie` builds has the upstream worldwide figure or 0 when it is
absent, the upstream optional opening-weekend figure as it is, and the upstream
currency, source and last-updated strings. -/
theorem createMovie_enrichment_normalized (client : BoxOfficeClient) (payload : MovieCreate)
    (id : String) (bo : UpstreamBoxOffice) (h : client payload.Title = (some bo, none)) :
    (createMovie.movie (some client) payload id).BoxOffice =
      some
        { Revenue :=
            { Worldwide := bo.Revenue.Worldwide.getD 0
              OpeningWeekendUsa := bo.Revenue.OpeningWeekendUSA }
          Currency := bo.Currency
          Source := bo.Source
          LastUpdated := bo.LastUpdated } := by
  simp only [createMovie.movie, createMovie.box, h]
  cases hw : bo.Revenue.Worldwide <;> simp [hw]

/-- Witness for C9 with the sample record (worldwide 100, opening weekend absent). -/
theorem createMovie_enrichment_normalized_witness :
    recordClient samplePayload.Title = (some sampleUpstream, none) ∧
    (createMovie.movie (some recordClient) samplePayload "a").BoxOffice =
      some
        { Revenue :=
            { Worldwide := sampleUpstream.Revenue.Worldwide.getD 0
              OpeningWeekendUsa := sampleUpstream.Revenue.OpeningWeekendUSA }
          Currency := sampleUpstream.Currency
          Source := sampleUpstream.Source
          LastUpdated := sampleUpstream.LastUpdated } :=
  ⟨rfl, createMovie_enrichment_normalized recordClient samplePayload "a" sampleUpstream rfl⟩

theorem createMovie_of_valid (db : DB) (boxClient : Option BoxOfficeClient) (payload : MovieCreate)
    (id now : String) (fl : Faults) (hv : createMovie.valid payload = true) :
    createMovie db boxClient payload id now fl =
      match WithTx db fl fun tx => upsertMovie tx (createMovie.movie boxClient payload id) now fl with
      | (db1, some err) => (db1, ⟨500, .internal err, none⟩)
      | (db1, none) =>
        (db1, ⟨201, .movie (createMovie.movie boxClient payload id),
          some ("/movies/" ++ payload.Title)⟩) := by
  unfold createMovie.valid at hv
  simp only [Bool.and_eq_true, Bool.not_eq_true', Bool.or_eq_false_iff, decide_eq_false_iff_not]
    at hv
  unfold createMovie
  rw [if_neg (by tauto), if_neg (by tauto)]

theorem mem_leftJoin (db : DB) (r : JoinedRow) :
    r ∈ leftJoin db ↔
      ∃ m ∈ db.movies,
        (db.box_office.filter (fun b => b.movie_id = m.id) = [] ∧ r = joinRow m none) ∨
        (∃ b ∈ db.box_office, b.movie_id = m.id ∧ r = joinRow m (some b)) := by
  unfold leftJoin
  simp only [List.mem_flatMap]
  constructor
  · rintro ⟨m, hm, hr⟩
    refine ⟨m, hm, ?_⟩
    cases hf : db.box_office.filter (fun b => b.movie_id = m.id) with
    | nil =>
      rw [hf] at hr
      simp at hr
      exact Or.inl ⟨rfl, hr⟩
    | cons b bs =>
      rw [hf] at hr
      simp only [List.mem_map] at hr
      obtain ⟨b2, hb2, rfl⟩ := hr
      rw [← hf, List.mem_filter] at hb2
      exact Or.inr ⟨b2, hb2.1, by simpa using hb2.2, rfl⟩
  · rintro ⟨m, hm, h⟩
    refine ⟨m, hm, ?_⟩
    rcases h with ⟨hf, rfl⟩ | ⟨b, hb, hbm, rfl⟩
    · rw [hf]
      simp
    · have hmem : b ∈ db.box_office.filter (fun b => b.movie_id = m.id) := by
        rw [List.mem_filter]
        exact ⟨hb, by simpa using hbm⟩
      cases hf : db.box_office.filter (fun b => b.movie_id = m.id) with
      | nil => rw [hf] at hmem; simp at hmem
      | cons b2 bs =>
        rw [hf] at hmem
        simp only [List.mem_map]
        exact ⟨b, hmem, rfl⟩

theorem sqlLimit_subset {α : Type} (n : Int) (rows : List α) : ∀ x ∈ sqlLimit n rows, x ∈ rows := by
  intro x hx
  unfold sqlLimit at hx
  split at hx
  · exact hx
  · exact List.mem_of_mem_take hx

theorem mem_matchingRows (db : DB) (q year genre cursor : String) (r : JoinedRow) :
    r ∈ matchingRows db q year genre cursor ↔
      r ∈ leftJoin db ∧ (whereClauses q year genre cursor).all (fun c => c r) = true := by
  unfold matchingRows
  rw [List.mem_insertionSort, List.mem_filter]

/-- Every movie on a page of `listMoviesFromDB` is the scan of a row of the join. -/
theorem listMoviesFromDB_page_subset (db : DB) (fl : Faults) (q year genre cursor : String)
    (limit : Int) (page : List Movie) (next : Option String)
    (h : listMoviesFromDB db fl q year genre limit cursor = .ok (page, next)) :
    ∀ m ∈ page, ∃ r ∈ leftJoin db, scanRow r = m := by
  have key : ∀ m ∈ (scanLoop (sqlLimit (wrap64 (limit + 1))
      (matchingRows db q year genre cursor))).1, ∃ r ∈ leftJoin db, scanRow r = m := by
    intro m hm
    rw [scanLoop_fst, List.mem_map] at hm
    obtain ⟨r, hr, rfl⟩ := hm
    exact ⟨r, ((mem_matchingRows db q year genre cursor r).1 (sqlLimit_subset _ _ r hr)).1, rfl⟩
  unfold listMoviesFromDB at h
  split at h
  · cases h
  · simp only at h
    split at h
    · split at h
      · cases h
      · cases h
        intro m hm
        exact key m (List.mem_of_mem_take hm)
    · cases h
      exact key

theorem insertOrIgnoreMovie_eq (row : MovieRow) (db : DB) :
    insertOrIgnoreMovie row db =
      .ok (if db.movies.any (fun r => r.id = row.id || r.title = row.title) then db
        else { db with movies := db.movies ++ [row] }) := by
  unfold insertOrIgnoreMovie
  split <;> rfl

theorem ExecContext_ok (tx : Tx) (stmt : DB → Except SqlError DB) (d : DB)
    (h : stmt tx.cur = .ok d) : tx.ExecContext false stmt = ({ tx with cur := d }, none) := by
  simp [Tx.ExecContext, h]

/-- The store `WithTx` commits for `upsertMovie` when the movie has no enrichment
and no call fails for an outside reason. -/
theorem WithTx_upsertMovie_plain (db : DB) (m : Movie) (now : String) (fl : Faults)
    (hb : fl.beginTx = false) (h1 : fl.stmt1 = false) (hc : fl.commitTx = false)
    (hbo : m.BoxOffice = none) :
    WithTx db fl (fun tx => upsertMovie tx m now fl) =
      (if db.movies.any (fun r => r.id = m.ID || r.title = m.Title) then db
        else { db with movies := db.movies ++
          [⟨m.ID, m.Title, m.ReleaseDate, m.Genre, m.Distributor, m.Budget, m.MpaRating, now, now⟩] },
        none) := by
  simp only [WithTx, BeginTx, hb, upsertMovie, h1, hbo, Bool.false_eq_true, if_false]
  rw [ExecContext_ok _ _ _ (insertOrIgnoreMovie_eq _ _)]
  simp [Tx.Commit, hc]

/-- The store `WithTx` commits for `upsertMovie` when it reports no error. -/
theorem WithTx_upsertMovie_committed (db : DB) (m : Movie) (now : String) (fl : Faults) (db1 : DB)
    (h : WithTx db fl (fun tx => upsertMovie tx m now fl) = (db1, none)) :
    db1.movies = (if db.movies.any (fun r => r.id = m.ID || r.title = m.Title) then db.movies
        else db.movies ++
          [⟨m.ID, m.Title, m.ReleaseDate, m.Genre, m.Distributor, m.Budget, m.MpaRating, now, now⟩]) ∧
    db1.ratings = db.ratings ∧
    (m.BoxOffice = none → db1.box_office = db.box_office) ∧
    (∀ bo, m.BoxOffice = some bo →
      db1.box_office = db.box_office.filter (fun b => b.movie_id ≠ m.ID) ++
        [⟨m.ID, bo.Currency, bo.Source, bo.LastUpdated, bo.Revenue.Worldwide,
          some (valueOrZero bo.Revenue.OpeningWeekendUsa)⟩]) := by
  have hww : ∀ w : Int, valueOrZero (if w ≠ 0 then some w else none) = w := by
    intro w
    by_cases hw : w = 0 <;> simp [valueOrZero, hw]
  have hd : ∀ db2 : DB,
      (if db.movies.any (fun r => r.id = m.ID || r.title = m.Title) then db
        else { db with movies := db.movies ++
          [⟨m.ID, m.Title, m.ReleaseDate, m.Genre, m.Distributor, m.Budget, m.MpaRating, now, now⟩] })
        = db2 →
      db2.movies = (if db.movies.any (fun r => r.id = m.ID || r.title = m.Title) then db.movies
        else db.movies ++
          [⟨m.ID, m.Title, m.ReleaseDate, m.Genre, m.Distributor, m.Budget, m.MpaRating, now, now⟩]) ∧
      db2.box_office = db.box_office ∧ db2.ratings = db.ratings := by
    intro db2 h2
    subst h2
    split <;> simp
  rcases fl with ⟨b, s1, s2, c, q1, q2⟩
  cases b
  swap
  · simp [WithTx, BeginTx] at h
  cases s1
  swap
  · simp [WithTx, BeginTx, upsertMovie, Tx.ExecContext, Tx.Rollback] at h
  simp only [WithTx, BeginTx, upsertMovie, Bool.false_eq_true, if_false] at h
  rw [ExecContext_ok _ _ _ (insertOrIgnoreMovie_eq _ _)] at h
  simp only at h
  generalize hg : (if db.movies.any (fun r => r.id = m.ID || r.title = m.Title) then db
        else { db with movies := db.movies ++
          [⟨m.ID, m.Title, m.ReleaseDate, m.Genre, m.Distributor, m.Budget, m.MpaRating, now, now⟩] })
        = db2 at h
  obtain ⟨hm2, hb2, hr2⟩ := hd db2 hg
  cases hbo : m.BoxOffice with
  | none =>
    rw [hbo] at h
    cases c
    · simp only [Tx.Commit, Bool.false_eq_true, if_false, Prod.mk.injEq, and_true] at h
      subst h
      refine ⟨hm2, hr2, fun _ => hb2, ?_⟩
      intro bo hbo2
      cases hbo2
    · simp [Tx.Commit] at h
  | some bo =>
    rw [hbo] at h
    simp only [hww] at h
    cases s2
    swap
    · simp [Tx.ExecContext, Tx.Rollback] at h
    by_cases hany : db2.movies.any (fun r => r.id = m.ID) = true
    · simp only [Tx.ExecContext, insertOrReplaceBoxOffice, hany, Bool.false_eq_true, if_false,
        if_true] at h
      cases c
      · simp only [Tx.Commit, Bool.false_eq_true, if_false, Prod.mk.injEq, and_true] at h
        subst h
        refine ⟨hm2, hr2, ?_, ?_⟩
        · intro hc
          cases hc
        · intro bo2 hbo2
          cases hbo2
          simp only [hb2]
      · simp [Tx.Commit] at h
    · simp [Tx.ExecContext, insertOrReplaceBoxOffice, hany, Tx.Rollback] at h

theorem whereClauses_empty : whereClauses "" "" "" "" = [] := by
  simp [whereClauses]

theorem scanRow_joinRow_none (mv : MovieRow) :
    scanRow (joinRow mv none) =
      ⟨mv.id, mv.title, mv.release_date, mv.genre, mv.distributor, mv.budget, mv.mpa_rating, none⟩ := by
  simp [scanRow, joinRow]

theorem scanRow_joinRow_some (mv : MovieRow) (b : BoxOfficeRow) :
    scanRow (joinRow mv (some b)) =
      ⟨mv.id, mv.title, mv.release_date, mv.genre, mv.distributor, mv.budget, mv.mpa_rating,
        some ⟨⟨b.revenue_worldwide, b.revenue_opening_weekend_usa⟩, b.currency, b.source,
          b.last_updated⟩⟩ := by
  simp [scanRow, joinRow]

theorem no_box_office_of_fresh (db : DB) (id : String) (hwf : WellFormed db)
    (hid : id ∉ db.movies.map (·.id)) : ∀ b ∈ db.box_office, b.movie_id ≠ id := by
  intro b hb hc
  exact hid (hc ▸ hwf.2.2.2.1 b hb)

theorem createMovie_box_none (boxClient : Option BoxOfficeClient) (title : String)
    (hcl : boxClient = none ∨ ∃ c, boxClient = some c ∧
      (c title = (none, some .notFound) ∨ (c title).2 = some .other)) :
    createMovie.box boxClient title = none := by
  rcases hcl with rfl | ⟨c, rfl, h | h⟩
  · rfl
  · simp [createMovie.box, h]
  · simp [createMovie.box, h]

/-- C5 (counterexample): creating `Alpha` again without enrichment answers 201
with a movie whose id is the newly assigned `b`, while the store keeps, and a
listing reads, the `Alpha` movie with id `a`. -/
theorem createMovie_returns_unstored_id :
    (createMovie oneMovie none samplePayload "b" "t1" noFaults).2
      = ⟨201, .movie (sampleMovie "b" "Alpha"), some "/movies/Alpha"⟩ ∧
    listMoviesFromDB (createMovie oneMovie none samplePayload "b" "t1" noFaults).1 noFaults
      "" "" "" 20 "" = .ok ([sampleMovie "a" "Alpha"], none) := by
  decide

/-- C5 (amended): when `createMovie` answers 201 for a valid candidate whose title
and assigned id are not yet in the (well-formed) store, and the enrichment it
built is absent or has a present opening-weekend figure, the movie in the
response is the movie every later page of `listMoviesFromDB` shows under that
title, and the unfiltered listing contains it. -/
theorem createMovie_returns_persisted (db : DB) (boxClient : Option BoxOfficeClient)
    (payload : MovieCreate) (id now : String) (fl : Faults)
    (hwf : WellFormed db) (hv : createMovie.valid payload = true)
    (hid : id ∉ db.movies.map (·.id)) (ht : payload.Title ∉ db.movies.map (·.title))
    (hbo : ∀ bo, createMovie.box boxClient payload.Title = some bo →
      bo.Revenue.OpeningWeekendUsa ≠ none)
    (hok : (createMovie db boxClient payload id now fl).2.status = 201) :
    (createMovie db boxClient payload id now fl).2.body
      = .movie (createMovie.movie boxClient payload id) ∧
    (∀ fl2 q year genre limit cursor page next,
      listMoviesFromDB (createMovie db boxClient payload id now fl).1 fl2 q year genre limit cursor
          = .ok (page, next) →
        ∀ m ∈ page, m.Title = payload.Title → m = createMovie.movie boxClient payload id) ∧
    createMovie.movie boxClient payload id ∈
      (matchingRows (createMovie db boxClient payload id now fl).1 "" "" "" "").map scanRow := by
  have hcm := createMovie_of_valid db boxClient payload id now fl hv
  rcases hw : WithTx db fl (fun tx => upsertMovie tx (createMovie.movie boxClient payload id) now fl)
    with ⟨db1, e⟩
  rw [hw] at hcm
  cases e with
  | some err =>
    rw [hcm] at hok
    simp at hok
  | none =>
    simp only at hcm
    rw [hcm]
    obtain ⟨hmov, -, hbnone, hbsome⟩ := WithTx_upsertMovie_committed db _ now fl db1 hw
    have hnc : db.movies.any (fun r => decide (r.id = id) || decide (r.title = payload.Title))
        = false := by
      rw [List.any_eq_false]
      intro r hr
      simp only [Bool.or_eq_true, decide_eq_true_eq, not_or]
      exact ⟨fun h => hid (h ▸ List.mem_map_of_mem _ hr), fun h => ht (h ▸ List.mem_map_of_mem _ hr)⟩
    simp only [createMovie.movie, hnc, Bool.false_eq_true, if_false] at hmov hbnone hbsome
    have hfresh := no_box_office_of_fresh db id hwf hid
    refine ⟨rfl, ?_, ?_⟩
    · intro fl2 q year genre limit cursor page next hl m hm hmt
      obtain ⟨r, hr, rfl⟩ :=
        listMoviesFromDB_page_subset _ fl2 q year genre cursor limit page next hl m hm
      rw [mem_leftJoin] at hr
      obtain ⟨mv, hmv, hcase⟩ := hr
      have hmvt : mv.title = payload.Title := by
        rcases hcase with ⟨_, rfl⟩ | ⟨b, _, _, rfl⟩
        · simpa [scanRow_joinRow_none] using hmt
        · simpa [scanRow_joinRow_some] using hmt
      rw [hmov, List.mem_append, List.mem_singleton] at hmv
      rcases hmv with hmv | rfl
      · exact absurd (hmvt ▸ List.mem_map_of_mem (·.title) hmv) ht
      · simp only at hcase
        cases hbx : createMovie.box boxClient payload.Title with
        | none =>
          rcases hcase with ⟨_, rfl⟩ | ⟨b, hb, hbid, rfl⟩
          · simp [scanRow_joinRow_none, createMovie.movie, hbx]
          · rw [hbnone hbx] at hb
            exact absurd hbid (hfresh b hb)
        | some bo =>
          have hbs := hbsome bo hbx
          rcases hcase with ⟨hnil, rfl⟩ | ⟨b, hb, hbid, rfl⟩
          · exfalso
            rw [hbs, List.filter_eq_nil_iff] at hnil
            exact hnil _ (List.mem_append_right _ (List.mem_singleton.2 rfl)) (by simp)
          · rw [hbs, List.mem_append, List.mem_singleton] at hb
            rcases hb with hb | rfl
            · rw [List.mem_filter] at hb
              simp [hbid] at hb
            · obtain ⟨v, hv2⟩ := Option.ne_none_iff_exists'.1 (hbo bo hbx)
              rcases bo with ⟨⟨w, ow⟩, cur, src, lu⟩
              simp only at hv2
              subst hv2
              simp [scanRow_joinRow_some, createMovie.movie, hbx, valueOrZero]
    · rw [List.mem_map]
      cases hbx : createMovie.box boxClient payload.Title with
      | none =>
        refine ⟨joinRow ⟨id, payload.Title, payload.ReleaseDate, payload.Genre, payload.Distributor,
          payload.Budget, payload.MpaRating, now, now⟩ none, ?_, ?_⟩
        · rw [mem_matchingRows, mem_leftJoin]
          refine ⟨⟨_, by rw [hmov]; exact List.mem_append_right _ (List.mem_singleton.2 rfl),
            Or.inl ⟨?_, rfl⟩⟩, by rw [whereClauses_empty]; rfl⟩
          rw [hbnone hbx, List.filter_eq_nil_iff]
          intro b hbm
          simpa using hfresh b hbm
        · simp [scanRow_joinRow_none, createMovie.movie, hbx]
      | some bo =>
        have hbs := hbsome bo hbx
        obtain ⟨v, hv2⟩ := Option.ne_none_iff_exists'.1 (hbo bo hbx)
        refine ⟨joinRow ⟨id, payload.Title, payload.ReleaseDate, payload.Genre, payload.Distributor,
          payload.Budget, payload.MpaRating, now, now⟩
          (some ⟨id, bo.Currency, bo.Source, bo.LastUpdated, bo.Revenue.Worldwide,
            some (valueOrZero bo.Revenue.OpeningWeekendUsa)⟩), ?_, ?_⟩
        · rw [mem_matchingRows, mem_leftJoin]
          refine ⟨⟨_, by rw [hmov]; exact List.mem_append_right _ (List.mem_singleton.2 rfl),
            Or.inr ⟨_, ?_, rfl, rfl⟩⟩, by rw [whereClauses_empty]; rfl⟩
          rw [hbs]
          exact List.mem_append_right _ (List.mem_singleton.2 rfl)
        · rcases bo with ⟨⟨w, ow⟩, cur, src, lu⟩
          simp only at hv2
          subst hv2
          simp [scanRow_joinRow_some, createMovie.movie, hbx, valueOrZero]

/-- Witness for C5 (amended): creating `Alpha` in the empty store with an
upstream record whose opening-weekend figure is present. -/
theorem createMovie_returns_persisted_witness :
    WellFormed emptyDB ∧ createMovie.valid samplePayload = true ∧
    (createMovie emptyDB (some fullClient) samplePayload "a" "t1" noFaults).2.status = 201 ∧
    ((createMovie emptyDB (some fullClient) samplePayload "a" "t1" noFaults).2.body
      = .movie (createMovie.movie (some fullClient) samplePayload "a") ∧
    (∀ fl2 q year genre limit cursor page next,
      listMoviesFromDB (createMovie emptyDB (some fullClient) samplePayload "a" "t1" noFaults).1
          fl2 q year genre limit cursor = .ok (page, next) →
        ∀ m ∈ page, m.Title = samplePayload.Title →
          m = createMovie.movie (some fullClient) samplePayload "a") ∧
    createMovie.movie (some fullClient) samplePayload "a" ∈
      (matchingRows (createMovie emptyDB (some fullClient) samplePayload "a" "t1" noFaults).1
        "" "" "" "").map scanRow) :=
  ⟨by simp [WellFormed, emptyDB], by decide, by decide,
    createMovie_returns_persisted emptyDB (some fullClient) samplePayload "a" "t1" noFaults
      (by simp [WellFormed, emptyDB]) (by decide) (by decide) (by decide)
      (by
        intro bo h
        have hb : createMovie.box (some fullClient) samplePayload.Title
            = some ⟨⟨100, some 7⟩, "USD", "upstream", "2021-05-05"⟩ := by decide
        rw [hb] at h
        cases h
        decide)
      (by decide)⟩

/-! ## Submitting a rating -/

/-- The store `WithTx` commits for `upsertRating` when it reports no error is the
result of the upsert statement. -/
theorem WithTx_upsertRating_committed (db : DB) (r : RatingResult) (now : String) (fl : Faults)
    (db1 : DB) (h : WithTx db fl (fun tx => upsertRating tx r now fl) = (db1, none)) :
    insertRatingOnConflictUpdate r.MovieTitle r.RaterID r.Rating now db = .ok db1 := by
  rcases fl with ⟨b, s1, s2, c, q1, q2⟩
  cases b
  swap
  · simp [WithTx, BeginTx] at h
  cases s1
  swap
  · simp [WithTx, BeginTx, upsertRating, Tx.ExecContext, Tx.Rollback] at h
  simp only [WithTx, BeginTx, upsertRating, Tx.ExecContext, Bool.false_eq_true, if_false] at h
  cases hs : insertRatingOnConflictUpdate r.MovieTitle r.RaterID r.Rating now db with
  | error e =>
    rw [hs] at h
    simp [Tx.Rollback] at h
  | ok d =>
    rw [hs] at h
    cases c
    · simp only [Tx.Commit, Bool.false_eq_true, if_false, Prod.mk.injEq, and_true] at h
      rw [h]
    · simp [Tx.Commit] at h

/-- What the upsert statement does to the store when it succeeds. -/
theorem insertRatingOnConflictUpdate_ok (title raterID : String) (rating : ℚ) (now : String)
    (db db1 : DB) (h : insertRatingOnConflictUpdate title raterID rating now db = .ok db1) :
    ∃ movieID, selectMovieIdByTitle db title = some movieID ∧
      db1.movies = db.movies ∧ db1.box_office = db.box_office ∧
      db1.ratings =
        if db.ratings.any (fun r => r.movie_id = movieID && r.rater_id = raterID) then
          db.ratings.map fun r =>
            if r.movie_id = movieID ∧ r.rater_id = raterID then
              { r with rating := rating, updated_at := now }
            else r
        else db.ratings ++ [⟨movieID, raterID, rating, now⟩] := by
  unfold insertRatingOnConflictUpdate at h
  cases hm : selectMovieIdByTitle db title with
  | none =>
    rw [hm] at h
    cases h
  | some movieID =>
    rw [hm] at h
    refine ⟨movieID, rfl, ?_⟩
    simp only at h
    split at h
    · cases h
    · split at h
      · rename_i hany
        cases h
        simp [hany]
      · rename_i hany
        cases h
        simp [hany]

/-- A successful `submitRating` found the movie by its trimmed title, wrote the
rating with the upsert statement and chose its status from the rows that
existed before. -/
theorem submitRating_success_inv (db : DB) (title raterID : String) (rating : ℚ) (now : String)
    (fl : Faults)
    (h : (submitRating db title raterID rating now fl).2.status = 200 ∨
      (submitRating db title raterID rating now fl).2.status = 201) :
    ∃ movieID, selectMovieIdByTitle db (TrimSpace title) = some movieID ∧
      (submitRating db title raterID rating now fl).1.movies = db.movies ∧
      (submitRating db title raterID rating now fl).1.ratings =
        (if db.ratings.any (fun r => r.movie_id = movieID && r.rater_id = raterID) then
          db.ratings.map fun r =>
            if r.movie_id = movieID ∧ r.rater_id = raterID then
              { r with rating := rating, updated_at := now }
            else r
        else db.ratings ++ [⟨movieID, raterID, rating, now⟩]) ∧
      (submitRating db title raterID rating now fl).2.status =
        if (db.ratings.filter fun r => r.movie_id = movieID ∧ r.rater_id = raterID).length > 0
        then 200 else 201 := by
  unfold submitRating at h ⊢
  split at h
  · simp at h
  simp only at h ⊢
  split at h
  · simp at h
  split at h
  · simp at h
  split at h
  · simp at h
  rename_i h0 h1 h2 h3
  rw [if_neg h0, if_neg h1, if_neg h2, if_neg h3]
  cases hm : selectMovieIdByTitle db (TrimSpace title) with
  | none =>
    rw [hm] at h
    simp at h
  | some movieID =>
    rw [hm] at h
    simp only at h ⊢
    split at h
    · simp at h
    rename_i h4
    rw [if_neg h4]
    rcases hw : WithTx db fl (fun tx => upsertRating tx ⟨TrimSpace title, raterID, rating⟩ now fl)
      with ⟨db1, e⟩
    rw [hw] at h
    cases e with
    | some err => simp at h
    | none =>
      simp only
      obtain ⟨mid2, hm2, hmov, -, hrat⟩ := insertRatingOnConflictUpdate_ok _ _ _ _ _ _
        (WithTx_upsertRating_committed db _ now fl db1 hw)
      simp only at hm2
      rw [hm] at hm2
      cases hm2
      exact ⟨movieID, rfl, hmov, hrat, rfl⟩

theorem selectMovieIdByTitle_congr (db db1 : DB) (title : String) (h : db1.movies = db.movies) :
    selectMovieIdByTitle db1 title = selectMovieIdByTitle db title := by
  simp [selectMovieIdByTitle, h]

/-- Updating the rows of one `(movie_id, rater_id)` pair keeps which rows belong to the pair. -/
theorem filter_map_update (L : List RatingRow) (movieID raterID : String) (rating : ℚ)
    (now : String) :
    (L.map fun r =>
        if r.movie_id = movieID ∧ r.rater_id = raterID then
          { r with rating := rating, updated_at := now }
        else r).filter (fun r => r.movie_id = movieID ∧ r.rater_id = raterID)
      = (L.filter fun r => r.movie_id = movieID ∧ r.rater_id = raterID).map fun r =>
          { r with rating := rating, updated_at := now } := by
  induction L with
  | nil => rfl
  | cons a L ih =>
    by_cases ha : a.movie_id = movieID ∧ a.rater_id = raterID
    · simp only [List.map_cons, List.filter_cons, ha, and_self, if_true, decide_True, ih]
    · simp only [List.map_cons, List.filter_cons, ha, if_false, decide_False, ih]
      simp

/-- Under the primary key of `ratings`, at most one row belongs to a pair. -/
theorem ratings_key_count_le_one (L : List RatingRow) (movieID raterID : String)
    (hnd : (L.map fun r => (r.movie_id, r.rater_id)).Nodup) :
    (L.filter fun r => r.movie_id = movieID ∧ r.rater_id = raterID).length ≤ 1 := by
  have hsub : ((L.filter fun r => r.movie_id = movieID ∧ r.rater_id = raterID).map
      fun r => (r.movie_id, r.rater_id)).Nodup :=
    hnd.sublist ((List.filter_sublist L).map _)
  have hall : ∀ r ∈ L.filter (fun r => r.movie_id = movieID ∧ r.rater_id = raterID),
      (r.movie_id, r.rater_id) = (movieID, raterID) := by
    intro r hr
    rw [List.mem_filter] at hr
    have := hr.2
    simp only [decide_eq_true_eq] at this
    rw [this.1, this.2]
  generalize (L.filter fun r => r.movie_id = movieID ∧ r.rater_id = raterID) = F at hsub hall
  match F, hsub, hall with
  | [], _, _ => simp
  | [_], _, _ => simp
  | a :: b :: rest, hsub, hall =>
    exfalso
    have ha := hall a (by simp)
    have hb := hall b (by simp)
    simp only [List.map_cons, List.nodup_cons, List.mem_cons] at hsub
    exact hsub.1 (Or.inl (ha.trans hb.symm))

/-- After the upsert statement the pair has the rows it had, all holding the new
value, or one new row when it had none. -/
theorem ratings_after_upsert (L : List RatingRow) (movieID raterID : String) (rating : ℚ)
    (now : String) :
    ((if L.any (fun r => r.movie_id = movieID && r.rater_id = raterID) then
          L.map fun r =>
            if r.movie_id = movieID ∧ r.rater_id = raterID then
              { r with rating := rating, updated_at := now }
            else r
        else L ++ [⟨movieID, raterID, rating, now⟩]).filter
        fun r => r.movie_id = movieID ∧ r.rater_id = raterID).map (·.rating)
      = List.replicate
          (max 1 (L.filter fun r => r.movie_id = movieID ∧ r.rater_id = raterID).length) rating := by
  by_cases hany : L.any (fun r => r.movie_id = movieID && r.rater_id = raterID) = true
  · rw [if_pos hany, filter_map_update, List.map_map]
    have hpos : 1 ≤ (L.filter fun r => r.movie_id = movieID ∧ r.rater_id = raterID).length := by
      rw [List.any_eq_true] at hany
      obtain ⟨r, hr, hp⟩ := hany
      have : r ∈ L.filter fun r => r.movie_id = movieID ∧ r.rater_id = raterID := by
        rw [List.mem_filter]
        exact ⟨hr, by simpa using hp⟩
      exact List.length_pos_of_mem this
    rw [max_eq_right hpos]
    apply List.ext_getElem
    · simp
    · intro i h1 h2
      simp
  · rw [if_neg hany]
    have hnil : (L.filter fun r => r.movie_id = movieID ∧ r.rater_id = raterID) = [] := by
      rw [List.filter_eq_nil_iff]
      intro r hr hp
      apply hany
      rw [List.any_eq_true]
      exact ⟨r, hr, by simpa using hp⟩
    rw [List.filter_append, hnil]
    simp

/-- C10: in a well-formed store, when two successive `submitRating` calls with
the same title and rater id both answer 200 or 201, the movie with the trimmed
title exists, the store then holds exactly one rating row for that movie and
rater, holding the second value, the first call answered 201 if the pair had no
row before, and the second call answered 200. -/
theorem submitRating_twice (db : DB) (title raterID : String) (r1 r2 : ℚ) (now1 now2 : String)
    (fl1 fl2 : Faults) (hwf : WellFormed db)
    (h1 : (submitRating db title raterID r1 now1 fl1).2.status = 200 ∨
      (submitRating db title raterID r1 now1 fl1).2.status = 201)
    (h2 : (submitRating (submitRating db title raterID r1 now1 fl1).1 title raterID r2 now2
        fl2).2.status = 200 ∨
      (submitRating (submitRating db title raterID r1 now1 fl1).1 title raterID r2 now2
        fl2).2.status = 201) :
    ∃ movieID, selectMovieIdByTitle db (TrimSpace title) = some movieID ∧
      (((submitRating (submitRating db title raterID r1 now1 fl1).1 title raterID r2 now2
          fl2).1.ratings.filter fun r => r.movie_id = movieID ∧ r.rater_id = raterID).map
        (·.rating)) = [r2] ∧
      ((db.ratings.filter fun r => r.movie_id = movieID ∧ r.rater_id = raterID) = [] →
        (submitRating db title raterID r1 now1 fl1).2.status = 201) ∧
      (submitRating (submitRating db title raterID r1 now1 fl1).1 title raterID r2 now2
        fl2).2.status = 200 := by
  obtain ⟨mid, hmid, hmov1, hrat1, hst1⟩ := submitRating_success_inv db title raterID r1 now1 fl1 h1
  obtain ⟨mid2, hmid2, -, hrat2, hst2⟩ :=
    submitRating_success_inv (submitRating db title raterID r1 now1 fl1).1 title raterID r2 now2 fl2 h2
  rw [selectMovieIdByTitle_congr _ _ _ hmov1, hmid] at hmid2
  cases hmid2
  have hle := ratings_key_count_le_one db.ratings mid raterID hwf.2.2.2.2.1
  have hone : (((submitRating db title raterID r1 now1 fl1).1.ratings.filter
      fun r => r.movie_id = mid ∧ r.rater_id = raterID).map (·.rating)) = [r1] := by
    rw [hrat1, ratings_after_upsert, max_eq_left hle]
    rfl
  have hlen : ((submitRating db title raterID r1 now1 fl1).1.ratings.filter
      fun r => r.movie_id = mid ∧ r.rater_id = raterID).length = 1 := by
    have := congrArg List.length hone
    simpa using this
  refine ⟨mid, hmid, ?_, ?_, ?_⟩
  · rw [hrat2, ratings_after_upsert, hlen]
    rfl
  · intro hnil
    rw [hst1, hnil]
    rfl
  · rw [hst2, hlen]
    rfl

/-- What `submitRating` does when the title is not empty, the rater id is
present, the rating is valid, the movie with the trimmed title exists and no
store call fails for an outside reason. -/
theorem submitRating_found (db : DB) (title raterID : String) (rating : ℚ) (now : String)
    (movieID : String) (ht : (goBytes title).length ≠ 0) (hr : raterID ≠ "")
    (hlo : 1 / 2 ≤ rating) (hhi : rating ≤ 5) (hmod : mathMod (rating * 2) 1 = 0)
    (hm : selectMovieIdByTitle db (TrimSpace title) = some movieID) :
    submitRating db title raterID rating now noFaults =
      ({ db with
          ratings :=
            if db.ratings.any (fun r => r.movie_id = movieID && r.rater_id = raterID) then
              db.ratings.map fun r =>
                if r.movie_id = movieID ∧ r.rater_id = raterID then
                  { r with rating := rating, updated_at := now }
                else r
            else db.ratings ++ [⟨movieID, raterID, rating, now⟩] },
        ⟨if (db.ratings.filter fun r => r.movie_id = movieID ∧ r.rater_id = raterID).length > 0
            then 200 else 201,
          .rating ⟨TrimSpace title, raterID, rating⟩,
          if (if (db.ratings.filter fun r => r.movie_id = movieID ∧ r.rater_id = raterID).length > 0
              then 200 else 201) = 201 then
            some ("/movies/" ++ TrimSpace title ++ "/ratings/" ++ raterID)
          else none⟩) := by
  have hv : ¬ (rating < 1 / 2 ∨ rating > 5 ∨ mathMod (rating * 2) 1 ≠ 0) := by
    rintro (h | h | h)
    · exact absurd hlo (not_le.2 h)
    · exact absurd hhi (not_le.2 h)
    · exact h hmod
  have hc : ¬ (rating < 1 / 2 ∨ rating > 5) := by
    rintro (h | h)
    · exact absurd hlo (not_le.2 h)
    · exact absurd hhi (not_le.2 h)
  unfold submitRating
  rw [if_neg ht]
  simp only
  rw [if_neg hr, if_neg hv]
  simp only [noFaults, Bool.false_eq_true, if_false, hm, WithTx, BeginTx, upsertRating,
    Tx.ExecContext, insertRatingOnConflictUpdate, if_neg hc]
  by_cases hany : db.ratings.any (fun r => r.movie_id = movieID && r.rater_id = raterID) = true
  · simp [hany, Tx.Commit]
  · simp [hany, Tx.Commit]

/-- Witness for C10: two ratings, 3 then 4.5, by the same rater for `Alpha`. -/
theorem submitRating_twice_witness :
    WellFormed oneMovie ∧
    ∃ movieID, selectMovieIdByTitle oneMovie (TrimSpace "Alpha") = some movieID ∧
      (((submitRating (submitRating oneMovie "Alpha" "rater-1" 3 "t1" noFaults).1 "Alpha" "rater-1"
          (9 / 2) "t2" noFaults).1.ratings.filter
            fun r => r.movie_id = movieID ∧ r.rater_id = "rater-1").map (·.rating)) = [9 / 2] ∧
      ((oneMovie.ratings.filter fun r => r.movie_id = movieID ∧ r.rater_id = "rater-1") = [] →
        (submitRating oneMovie "Alpha" "rater-1" 3 "t1" noFaults).2.status = 201) ∧
      (submitRating (submitRating oneMovie "Alpha" "rater-1" 3 "t1" noFaults).1 "Alpha" "rater-1"
        (9 / 2) "t2" noFaults).2.status = 200 :=
  have hwf : WellFormed oneMovie := by simp [WellFormed, oneMovie]
  have e1 := submitRating_found oneMovie "Alpha" "rater-1" 3 "t1" "a" (by decide) (by decide)
    (by norm_num) (by norm_num) (by norm_num [mathMod]) (by decide)
  ⟨hwf, submitRating_twice oneMovie "Alpha" "rater-1" 3 (9 / 2) "t1" "t2" noFaults noFaults hwf
    (Or.inr (by rw [e1]; decide))
    (Or.inl (by
      rw [e1, submitRating_found _ "Alpha" "rater-1" (9 / 2) "t2" "a" (by decide) (by decide)
        (by norm_num) (by norm_num) (by norm_num [mathMod]) (by decide)]
      decide))⟩

/-! ## Enrichment omission over later requests -/

theorem upsertRating_base (tx : Tx) (r : RatingResult) (now : String) (fl : Faults) :
    (upsertRating tx r now fl).1.base = tx.base := by
  unfold upsertRating
  have hb := ExecContext_base tx fl.stmt1
    (insertRatingOnConflictUpdate r.MovieTitle r.RaterID r.Rating now)
  split
  · rename_i tx1 err h
    rw [h] at hb
    exact hb
  · rename_i tx1 h
    rw [h] at hb
    exact hb

/-- Whenever `WithTx` reports an error, for a body that keeps the base, the
committed state is the state before the call. -/
theorem WithTx_some_unchanged (db : DB) (fl : Faults) (fn : Tx → Tx × Option DbError)
    (hbase : ∀ tx, (fn tx).1.base = tx.base) (db1 : DB) (err : DbError)
    (h : WithTx db fl fn = (db1, some err)) : db1 = db := by
  unfold WithTx BeginTx at h
  by_cases hb : fl.beginTx = true
  · simp only [hb, if_true, Prod.mk.injEq] at h
    exact h.1.symm
  · simp only [hb, Bool.false_eq_true, if_false] at h
    have hbs := hbase ⟨db, db⟩
    rcases hfn : fn ⟨db, db⟩ with ⟨tx1, e⟩
    rw [hfn] at h hbs
    cases e with
    | some e2 =>
      simp only [Tx.Rollback, Prod.mk.injEq] at h
      rw [← h.1]
      exact hbs
    | none =>
      simp only [Tx.Commit] at h
      split at h
      · simp only [Prod.mk.injEq] at h
        rw [← h.1]
        exact hbs
      · simp at h

theorem submitRating_box_office (db : DB) (title raterID : String) (rating : ℚ) (now : String)
    (fl : Faults) : (submitRating db title raterID rating now fl).1.box_office = db.box_office := by
  unfold submitRating
  split
  · rfl
  simp only
  split
  · rfl
  split
  · rfl
  split
  · rfl
  split
  · rfl
  split
  · rfl
  rcases hw : WithTx db fl (fun tx => upsertRating tx ⟨TrimSpace title, raterID, rating⟩ now fl)
    with ⟨db1, e⟩
  cases e with
  | some err =>
    simp only
    rw [WithTx_some_unchanged db fl _ (fun tx => upsertRating_base tx _ now fl) db1 err hw]
  | none =>
    simp only
    obtain ⟨_, _, _, hbx, _⟩ := insertRatingOnConflictUpdate_ok _ _ _ _ _ _
      (WithTx_upsertRating_committed db _ now fl db1 hw)
    exact hbx

/-- Creating a movie under one id writes no enrichment row for another id. -/
theorem createMovie_box_office_other (db : DB) (boxClient : Option BoxOfficeClient)
    (payload : MovieCreate) (id2 now : String) (fl : Faults) (id : String) (hne : id2 ≠ id)
    (h : ∀ b ∈ db.box_office, b.movie_id ≠ id) :
    ∀ b ∈ (createMovie db boxClient payload id2 now fl).1.box_office, b.movie_id ≠ id := by
  unfold createMovie
  split
  · exact h
  split
  · exact h
  simp only
  rcases hw : WithTx db fl
      (fun tx => upsertMovie tx (createMovie.movie boxClient payload id2) now fl) with ⟨db1, e⟩
  cases e with
  | some err =>
    simp only
    rw [WithTx_some_unchanged db fl _ (fun tx => upsertMovie_base tx _ now fl) db1 err hw]
    exact h
  | none =>
    simp only
    obtain ⟨-, -, hbnone, hbsome⟩ := WithTx_upsertMovie_committed db _ now fl db1 hw
    cases hbx : (createMovie.movie boxClient payload id2).BoxOffice with
    | none =>
      rw [hbnone hbx]
      exact h
    | some bo =>
      rw [hbsome bo hbx]
      intro b hb
      rw [List.mem_append, List.mem_singleton] at hb
      rcases hb with hb | rfl
      · exact h b (List.mem_filter.1 hb).1
      · exact hne

/-- No later writing request that is assigned another id writes an enrichment
row for `id`. -/
theorem serveAll_box_office_other (id : String) (reqs : List Request) :
    ∀ db : DB, (∀ b ∈ db.box_office, b.movie_id ≠ id) →
      (∀ r ∈ reqs, r.assignedId ≠ some id) →
      ∀ b ∈ (serveAll db reqs).box_office, b.movie_id ≠ id := by
  induction reqs with
  | nil =>
    intro db h _
    exact h
  | cons r rs ih =>
    intro db h hr
    have hstep : ∀ b ∈ (serve db r).box_office, b.movie_id ≠ id := by
      cases r with
      | createMovie boxClient payload id2 now fl =>
        have hne : id2 ≠ id := by
          intro hc
          exact hr _ (List.mem_cons_self _ _) (by simp [Request.assignedId, hc])
        exact createMovie_box_office_other db boxClient payload id2 now fl id hne h
      | submitRating title raterID rating now fl =>
        simp only [serve, submitRating_box_office]
        exact h
    exact ih (serve db r) hstep (fun r2 hr2 => hr r2 (List.mem_cons_of_mem _ hr2))

/-- A movie whose id has no enrichment row is listed without enrichment. -/
theorem listMoviesFromDB_no_enrichment (db : DB) (id : String)
    (h : ∀ b ∈ db.box_office, b.movie_id ≠ id) (fl : Faults) (q year genre cursor : String)
    (limit : Int) (page : List Movie) (next : Option String)
    (hl : listMoviesFromDB db fl q year genre limit cursor = .ok (page, next)) :
    ∀ m ∈ page, m.ID = id → m.BoxOffice = none := by
  intro m hm hmid
  obtain ⟨r, hr, rfl⟩ := listMoviesFromDB_page_subset db fl q year genre cursor limit page next hl m hm
  rw [mem_leftJoin] at hr
  obtain ⟨mv, _, ⟨_, rfl⟩ | ⟨b, hbm, hbid, rfl⟩⟩ := hr
  · rw [scanRow_joinRow_none]
  · exfalso
    rw [scanRow_joinRow_some] at hmid
    simp only at hmid
    exact h b hbm (hbid.trans hmid)

/-- C8: for a valid candidate and a well-formed store in which the assigned id
is new, when no client is configured or the upstream fetch returns not-found or
another error, and no store call fails for an outside reason, `createMovie`
answers 201 with a movie whose `BoxOffice` is nil, leaves table `box_office` as
it was, and after any later writing requests (none of them assigned the same
id) every movie with that id on any page of `listMoviesFromDB` has `BoxOffice`
nil; when the title is new, the unfiltered listing contains the movie. -/
theorem createMovie_omits_enrichment (db : DB) (boxClient : Option BoxOfficeClient)
    (payload : MovieCreate) (id now : String) (fl : Faults)
    (hwf : WellFormed db) (hv : createMovie.valid payload = true)
    (hid : id ∉ db.movies.map (·.id))
    (hcl : boxClient = none ∨ ∃ c, boxClient = some c ∧
      (c payload.Title = (none, some .notFound) ∨ (c payload.Title).2 = some .other))
    (hb : fl.beginTx = false) (h1 : fl.stmt1 = false) (hc : fl.commitTx = false) :
    (createMovie.movie boxClient payload id).BoxOffice = none ∧
    (createMovie db boxClient payload id now fl).2 =
      ⟨201, .movie (createMovie.movie boxClient payload id), some ("/movies/" ++ payload.Title)⟩ ∧
    (createMovie db boxClient payload id now fl).1.box_office = db.box_office ∧
    (∀ reqs : List Request, (∀ r ∈ reqs, r.assignedId ≠ some id) →
      ∀ fl2 q year genre limit cursor page next,
        listMoviesFromDB (serveAll (createMovie db boxClient payload id now fl).1 reqs) fl2 q year
            genre limit cursor = .ok (page, next) →
          ∀ m ∈ page, m.ID = id → m.BoxOffice = none) ∧
    (payload.Title ∉ db.movies.map (·.title) →
      createMovie.movie boxClient payload id ∈
        (matchingRows (createMovie db boxClient payload id now fl).1 "" "" "" "").map scanRow) := by
  have hbox : (createMovie.movie boxClient payload id).BoxOffice = none :=
    createMovie_box_none boxClient payload.Title hcl
  have hcm := createMovie_of_valid db boxClient payload id now fl hv
  rw [WithTx_upsertMovie_plain db _ now fl hb h1 hc hbox] at hcm
  simp only at hcm
  rw [hcm]
  have hbx : (if db.movies.any (fun r => r.id = (createMovie.movie boxClient payload id).ID ||
        r.title = (createMovie.movie boxClient payload id).Title) then db
      else { db with movies := db.movies ++
        [⟨(createMovie.movie boxClient payload id).ID, (createMovie.movie boxClient payload id).Title,
          (createMovie.movie boxClient payload id).ReleaseDate,
          (createMovie.movie boxClient payload id).Genre,
          (createMovie.movie boxClient payload id).Distributor,
          (createMovie.movie boxClient payload id).Budget,
          (createMovie.movie boxClient payload id).MpaRating, now, now⟩] }).box_office
      = db.box_office := by
    split <;> rfl
  refine ⟨hbox, rfl, hbx, ?_, ?_⟩
  · intro reqs hreqs fl2 q year genre limit cursor page next hl
    refine listMoviesFromDB_no_enrichment _ id ?_ fl2 q year genre cursor limit page next hl
    refine serveAll_box_office_other id reqs _ ?_ hreqs
    simp only at hbx ⊢
    rw [hbx]
    exact no_box_office_of_fresh db id hwf hid
  · intro ht
    have hnc : db.movies.any (fun r => r.id = (createMovie.movie boxClient payload id).ID ||
        r.title = (createMovie.movie boxClient payload id).Title) = false := by
      rw [List.any_eq_false]
      intro r hr
      simp only [createMovie.movie, Bool.or_eq_true, decide_eq_true_eq, not_or]
      exact ⟨fun h => hid (h ▸ List.mem_map_of_mem _ hr), fun h => ht (h ▸ List.mem_map_of_mem _ hr)⟩
    simp only [hnc, Bool.false_eq_true, if_false]
    rw [List.mem_map]
    refine ⟨joinRow ⟨id, payload.Title, payload.ReleaseDate, payload.Genre, payload.Distributor,
      payload.Budget, payload.MpaRating, now, now⟩ none, ?_, ?_⟩
    · rw [mem_matchingRows, mem_leftJoin]
      refine ⟨⟨_, List.mem_append_right _ (List.mem_singleton.2 rfl), Or.inl ⟨?_, rfl⟩⟩,
        by rw [whereClauses_empty]; rfl⟩
      rw [List.filter_eq_nil_iff]
      intro b hbm
      simpa using no_box_office_of_fresh db id hwf hid b hbm
    · rw [scanRow_joinRow_none]
      simp only [createMovie.movie] at hbox ⊢
      rw [hbox]

/-- Witness for C8: creating `Alpha` in the empty store with an upstream that
reports not-found. -/
theorem createMovie_omits_enrichment_witness :
    WellFormed emptyDB ∧ createMovie.valid samplePayload = true ∧
    "a" ∉ emptyDB.movies.map (·.id) ∧
    ((createMovie.movie (some notFoundClient) samplePayload "a").BoxOffice = none ∧
    (createMovie emptyDB (some notFoundClient) samplePayload "a" "t1" noFaults).2 =
      ⟨201, .movie (createMovie.movie (some notFoundClient) samplePayload "a"),
        some ("/movies/" ++ samplePayload.Title)⟩ ∧
    (createMovie emptyDB (some notFoundClient) samplePayload "a" "t1" noFaults).1.box_office
      = emptyDB.box_office ∧
    (∀ reqs : List Request, (∀ r ∈ reqs, r.assignedId ≠ some "a") →
      ∀ fl2 q year genre limit cursor page next,
        listMoviesFromDB
            (serveAll (createMovie emptyDB (some notFoundClient) samplePayload "a" "t1" noFaults).1
              reqs) fl2 q year genre limit cursor = .ok (page, next) →
          ∀ m ∈ page, m.ID = "a" → m.BoxOffice = none) ∧
    (samplePayload.Title ∉ emptyDB.movies.map (·.title) →
      createMovie.movie (some notFoundClient) samplePayload "a" ∈
        (matchingRows (createMovie emptyDB (some notFoundClient) samplePayload "a" "t1" noFaults).1
          "" "" "" "").map scanRow)) :=
  ⟨by simp [WellFormed, emptyDB], by decide, by decide,
    createMovie_omits_enrichment emptyDB (some notFoundClient) samplePayload "a" "t1" noFaults
      (by simp [WellFormed, emptyDB]) (by decide) (by decide)
      (Or.inr ⟨notFoundClient, rfl, Or.inl rfl⟩) rfl rfl rfl⟩

/-- Creating a movie whose title is already stored, when the upstream yields no
record and no store call fails for an outside reason, answers 201 and leaves the
store exactly as it was. -/
theorem createMovie_duplicate_title_without_record (db : DB) (boxClient : Option BoxOfficeClient)
    (payload : MovieCreate) (id now : String) (fl : Faults)
    (hv : createMovie.valid payload = true) (ht : payload.Title ∈ db.movies.map (·.title))
    (hcl : boxClient = none ∨ ∃ c, boxClient = some c ∧
      (c payload.Title = (none, some .notFound) ∨ (c payload.Title).2 = some .other))
    (hb : fl.beginTx = false) (h1 : fl.stmt1 = false) (hc : fl.commitTx = false) :
    createMovie db boxClient payload id now fl =
      (db, ⟨201, .movie (createMovie.movie boxClient payload id),
        some ("/movies/" ++ payload.Title)⟩) := by
  have hbox : (createMovie.movie boxClient payload id).BoxOffice = none :=
    createMovie_box_none boxClient payload.Title hcl
  have hany : db.movies.any (fun r => r.id = (createMovie.movie boxClient payload id).ID ||
      r.title = (createMovie.movie boxClient payload id).Title) = true := by
    rw [List.mem_map] at ht
    obtain ⟨r, hr, hrt⟩ := ht
    rw [List.any_eq_true]
    exact ⟨r, hr, by simp [createMovie.movie, hrt]⟩
  rw [createMovie_of_valid db boxClient payload id now fl hv,
    WithTx_upsertMovie_plain db _ now fl hb h1 hc hbox]
  simp only [hany, if_true]

/-! ## Atomic creation -/

/-- C6: if a statement of `upsertMovie` fails (the enrichment insert, or the
movie insert), `WithTx` returns an error and the committed store is exactly the
store before the call; `createMovie`, for a valid candidate from which that
movie is built, then answers 500 with that error and the same unchanged store. -/
theorem WithTx_upsertMovie_atomic (db : DB) (m : Movie) (now : String) (fl : Faults)
    (h : (upsertMovie ⟨db, db⟩ m now fl).2 ≠ none) :
    ∃ err, WithTx db fl (fun tx => upsertMovie tx m now fl) = (db, some err) ∧
      ∀ boxClient payload id, createMovie.valid payload = true →
        createMovie.movie boxClient payload id = m →
        createMovie db boxClient payload id now fl = (db, ⟨500, .internal err, none⟩) := by
  obtain ⟨err, herr⟩ := WithTx_error_unchanged db fl (fun tx => upsertMovie tx m now fl)
    (fun tx => upsertMovie_base tx m now fl) h
  refine ⟨err, herr, ?_⟩
  intro boxClient payload id hv hm
  rw [createMovie_of_valid db boxClient payload id now fl hv, hm, herr]

/-- Witness for C6: in the empty store the movie insert succeeds inside the
transaction (the uncommitted state holds the movie row), the enrichment insert
fails, and the committed store is still empty. -/
theorem WithTx_upsertMovie_atomic_witness :
    (upsertMovie ⟨emptyDB, emptyDB⟩ (enrichedMovie none) "t1" secondStatementFails).1.cur.movies
        = [⟨"a", "Alpha", "2020-01-01", "Drama", none, none, none, "t1", "t1"⟩] ∧
    (upsertMovie ⟨emptyDB, emptyDB⟩ (enrichedMovie none) "t1" secondStatementFails).2
        = some (.upsertBoxOffice .driver) ∧
    ∃ err, WithTx emptyDB secondStatementFails
        (fun tx => upsertMovie tx (enrichedMovie none) "t1" secondStatementFails)
      = (emptyDB, some err) ∧
      ∀ boxClient payload id, createMovie.valid payload = true →
        createMovie.movie boxClient payload id = enrichedMovie none →
        createMovie emptyDB boxClient payload id "t1" secondStatementFails
          = (emptyDB, ⟨500, .internal err, none⟩) :=
  ⟨by decide, by decide,
    WithTx_upsertMovie_atomic emptyDB (enrichedMovie none) "t1" secondStatementFails (by decide)⟩

/-! ## Rating validation -/

/-- `math.Mod(x, 1)` is zero exactly for the integers. -/
theorem mathMod_one_eq_zero_iff (x : ℚ) : mathMod x 1 = 0 ↔ ∃ n : ℤ, x = n := by
  unfold mathMod
  simp only [div_one, one_mul]
  constructor
  · intro h
    exact ⟨x.num.tdiv x.den, by linarith⟩
  · rintro ⟨n, rfl⟩
    simp

/-- The rating check of `submitRating` passes exactly for the ten half steps. -/
theorem rating_check_iff (r : ℚ) :
    ¬ (r < 1 / 2 ∨ r > 5 ∨ mathMod (r * 2) 1 ≠ 0) ↔ ∃ k : ℕ, 1 ≤ k ∧ k ≤ 10 ∧ r = k / 2 := by
  constructor
  · intro h
    simp only [not_or, not_lt, not_not, gt_iff_lt] at h
    obtain ⟨hlo, hhi, hmod⟩ := h
    obtain ⟨n, hn⟩ := (mathMod_one_eq_zero_iff _).1 hmod
    have h1 : (1 : ℚ) ≤ n := by rw [← hn]; linarith
    have h2 : (n : ℚ) ≤ 10 := by rw [← hn]; linarith
    have h1z : (1 : ℤ) ≤ n := by exact_mod_cast h1
    have h2z : n ≤ (10 : ℤ) := by exact_mod_cast h2
    refine ⟨n.toNat, by omega, by omega, ?_⟩
    have hc : ((n.toNat : ℕ) : ℚ) = (n : ℚ) := by
      have : ((n.toNat : ℕ) : ℤ) = n := Int.toNat_of_nonneg (by omega)
      exact_mod_cast this
    rw [hc, ← hn]
    ring
  · rintro ⟨k, hk1, hk2, rfl⟩
    have h1 : (1 : ℚ) ≤ k := by exact_mod_cast hk1
    have h2 : (k : ℚ) ≤ 10 := by exact_mod_cast hk2
    simp only [not_or, not_lt, not_not, gt_iff_lt]
    refine ⟨by linarith, by linarith, ?_⟩
    rw [mathMod_one_eq_zero_iff]
    exact ⟨k, by push_cast; ring⟩

/-- C11: with a title and a rater id present, `submitRating` passes its rating
check exactly for the values 0.5, 1.0, ..., 5.0 (`k / 2` for `k` from 1 to 10);
for every other value it answers 422 and returns the store as it is, whatever
the store holds and whichever store call would fail: no store call is made. -/
theorem submitRating_validation (db : DB) (title raterID : String) (r : ℚ) (now : String)
    (fl : Faults) (ht : (goBytes title).length ≠ 0) (hr : raterID ≠ "") :
    ((∃ k : ℕ, 1 ≤ k ∧ k ≤ 10 ∧ r = k / 2) ↔
      (submitRating db title raterID r now fl).2.status ≠ 422) ∧
    ((submitRating db title raterID r now fl).2.status = 422 →
      submitRating db title raterID r now fl =
        (db, ⟨422, .error "BAD_REQUEST" "rating out of range", none⟩)) := by
  by_cases hv : r < 1 / 2 ∨ r > 5 ∨ mathMod (r * 2) 1 ≠ 0
  · have hrej : submitRating db title raterID r now fl =
        (db, ⟨422, .error "BAD_REQUEST" "rating out of range", none⟩) := by
      unfold submitRating
      rw [if_neg ht]
      simp only
      rw [if_neg hr, if_pos hv]
    refine ⟨⟨fun hk => absurd hv ((rating_check_iff r).2 hk), fun hs => ?_⟩, fun _ => hrej⟩
    rw [hrej] at hs
    exact absurd rfl hs
  · have hacc : (submitRating db title raterID r now fl).2.status ≠ 422 := by
      unfold submitRating
      rw [if_neg ht]
      simp only
      rw [if_neg hr, if_neg hv]
      split
      · simp
      split
      · simp
      split
      · simp
      split
      · simp
      · simp only
        split <;> simp
    exact ⟨⟨fun _ => hacc, fun _ => (rating_check_iff r).1 hv⟩, fun hs => absurd hs hacc⟩

/-- Witness for C11: 0.4, 5.5 and 2.3 are rejected with 422, also as the float64
values nearest to 0.4 and 2.3; 0.5 and 5.0 are not. -/
theorem submitRating_validation_witness :
    (submitRating oneMovie "Alpha" "rater-1" (2 / 5) "t1" noFaults).2.status = 422 ∧
    (submitRating oneMovie "Alpha" "rater-1" (3602879701896397 / 9007199254740992) "t1"
      noFaults).2.status = 422 ∧
    (submitRating oneMovie "Alpha" "rater-1" (11 / 2) "t1" noFaults).2.status = 422 ∧
    (submitRating oneMovie "Alpha" "rater-1" (23 / 10) "t1" noFaults).2.status = 422 ∧
    (submitRating oneMovie "Alpha" "rater-1" (2589569785738035 / 1125899906842624) "t1"
      noFaults).2.status = 422 ∧
    (submitRating oneMovie "Alpha" "rater-1" (1 / 2) "t1" noFaults).2.status ≠ 422 ∧
    (submitRating oneMovie "Alpha" "rater-1" 5 "t1" noFaults).2.status ≠ 422 :=
  have rej : ∀ r : ℚ, (¬ ∃ k : ℕ, 1 ≤ k ∧ k ≤ 10 ∧ r = k / 2) →
      (submitRating oneMovie "Alpha" "rater-1" r "t1" noFaults).2.status = 422 := fun r hk =>
    not_not.1 fun hs =>
      hk ((submitRating_validation oneMovie "Alpha" "rater-1" r "t1" noFaults (by decide)
        (by decide)).1.2 hs)
  have acc : ∀ r : ℚ, (∃ k : ℕ, 1 ≤ k ∧ k ≤ 10 ∧ r = k / 2) →
      (submitRating oneMovie "Alpha" "rater-1" r "t1" noFaults).2.status ≠ 422 := fun r hk =>
    (submitRating_validation oneMovie "Alpha" "rater-1" r "t1" noFaults (by decide)
      (by decide)).1.1 hk
  have notHalf : ∀ (a b : ℕ), 0 < b → (∀ k : ℕ, k ≤ 10 → 2 * a ≠ k * b) →
      ¬ ∃ k : ℕ, 1 ≤ k ∧ k ≤ 10 ∧ ((a : ℚ) / b) = k / 2 := by
    rintro a b hb hne ⟨k, -, hk, he⟩
    have hb2 : (b : ℚ) ≠ 0 := by exact_mod_cast hb.ne'
    rw [div_eq_div_iff hb2 (by norm_num)] at he
    exact hne k hk (by rw [mul_comm]; exact_mod_cast he)
  ⟨rej _ (by exact_mod_cast notHalf 2 5 (by norm_num) (by decide)),
    rej _ (by exact_mod_cast notHalf 3602879701896397 9007199254740992 (by norm_num) (by decide)),
    rej _ (by exact_mod_cast notHalf 11 2 (by norm_num) (by decide)),
    rej _ (by exact_mod_cast notHalf 23 10 (by norm_num) (by decide)),
    rej _ (by exact_mod_cast notHalf 2589569785738035 1125899906842624 (by norm_num) (by decide)),
    acc _ ⟨1, by norm_num, by norm_num, by norm_num⟩,
    acc _ ⟨10, by norm_num, by norm_num, by norm_num⟩⟩

/-! ## Enrichment reconstruction in the reader -/

/-- C16: every movie on a page of `listMoviesFromDB` is scanned from a joined
row, and for every joined row the movie scanned from it has a non-nil
`BoxOffice` exactly when at least one of the five enrichment columns is
non-null; then every non-null column is the value of the corresponding field
and the opening-weekend field is the column, absent when the column is null. -/
theorem scanRow_boxOffice (r : JoinedRow) :
    (∀ db fl q year genre limit cursor page next,
      listMoviesFromDB db fl q year genre limit cursor = .ok (page, next) →
        ∀ m ∈ page, ∃ r2 ∈ leftJoin db, scanRow r2 = m) ∧
    ((scanRow r).BoxOffice ≠ none ↔
      (r.currency ≠ none ∨ r.source ≠ none ∨ r.last_updated ≠ none ∨
        r.revenue_worldwide ≠ none ∨ r.revenue_opening_weekend_usa ≠ none)) ∧
    (∀ bo, (scanRow r).BoxOffice = some bo →
      (∀ c, r.currency = some c → bo.Currency = c) ∧
      (∀ s, r.source = some s → bo.Source = s) ∧
      (∀ u, r.last_updated = some u → bo.LastUpdated = u) ∧
      (∀ w, r.revenue_worldwide = some w → bo.Revenue.Worldwide = w) ∧
      bo.Revenue.OpeningWeekendUsa = r.revenue_opening_weekend_usa) := by
  rcases r with ⟨id, title, rd, genre, dist, budget, mpa, cur, src, lu, ww, ow⟩
  refine ⟨fun db fl q year genre limit cursor page next h =>
    listMoviesFromDB_page_subset db fl q year genre cursor limit page next h, ?_, ?_⟩
  · cases cur <;> cases src <;> cases lu <;> cases ww <;> cases ow <;> simp [scanRow]
  · intro bo hbo
    simp only [scanRow] at hbo
    split at hbo
    · cases hbo
      refine ⟨?_, ?_, ?_, ?_, rfl⟩
      · intro c hc; simp only at hc; subst hc; rfl
      · intro s hs; simp only at hs; subst hs; rfl
      · intro u hu; simp only at hu; subst hu; rfl
      · intro w hw; simp only at hw; subst hw; rfl
    · cases hbo

/-- Witness for C16: a row whose only non-null enrichment column is the currency. -/
theorem scanRow_boxOffice_witness :
    (scanRow ⟨"a", "Alpha", "2020-01-01", "Drama", none, none, none, some "USD", none, none,
        none, none⟩).BoxOffice = some ⟨⟨0, none⟩, "USD", "", ""⟩ ∧
    (scanRow ⟨"a", "Alpha", "2020-01-01", "Drama", none, none, none, some "USD", none, none,
        none, none⟩).BoxOffice ≠ none ∧
    (scanRow ⟨"a", "Alpha", "2020-01-01", "Drama", none, none, none, none, none, none,
        none, none⟩).BoxOffice = none :=
  ⟨by decide,
    (scanRow_boxOffice ⟨"a", "Alpha", "2020-01-01", "Drama", none, none, none, some "USD", none,
      none, none, none⟩).2.1.2 (Or.inl (by decide)),
    not_not.1 fun h =>
      (by decide : ¬ ((none : Option String) ≠ none ∨ (none : Option String) ≠ none ∨
        (none : Option String) ≠ none ∨ (none : Option Int) ≠ none ∨ (none : Option Int) ≠ none))
        ((scanRow_boxOffice ⟨"a", "Alpha", "2020-01-01", "Drama", none, none, none, none, none,
          none, none, none⟩).2.1.1 h)⟩

/-! ## Frame of a rating write -/

/-- Updating the rows of one `(movie_id, rater_id)` pair leaves the rows of the
other pairs as they are. -/
theorem filter_not_map_update (L : List RatingRow) (movieID raterID : String) (rating : ℚ)
    (now : String) :
    (L.map fun r =>
        if r.movie_id = movieID ∧ r.rater_id = raterID then
          { r with rating := rating, updated_at := now }
        else r).filter (fun r => ¬ (r.movie_id = movieID ∧ r.rater_id = raterID))
      = L.filter fun r => ¬ (r.movie_id = movieID ∧ r.rater_id = raterID) := by
  induction L with
  | nil => rfl
  | cons a L ih =>
    by_cases ha : a.movie_id = movieID ∧ a.rater_id = raterID
    · simp only [List.map_cons, List.filter_cons, ha, and_self, if_true, not_true_eq_false,
        decide_False, ih]
      simp
    · simp only [List.map_cons, List.filter_cons, ha, if_false, not_false_eq_true, decide_True,
        ih]

/-- A successful `upsertRating` ran its statement on the uncommitted state. -/
theorem upsertRating_ok (tx : Tx) (r : RatingResult) (now : String) (fl : Faults) (tx1 : Tx)
    (h : upsertRating tx r now fl = (tx1, none)) :
    tx1.base = tx.base ∧
    insertRatingOnConflictUpdate r.MovieTitle r.RaterID r.Rating now tx.cur = .ok tx1.cur := by
  unfold upsertRating Tx.ExecContext at h
  by_cases hf : fl.stmt1 = true
  · simp [hf] at h
  · simp only [hf, Bool.false_eq_true, if_false] at h
    cases hs : insertRatingOnConflictUpdate r.MovieTitle r.RaterID r.Rating now tx.cur with
    | error e =>
      rw [hs] at h
      simp at h
    | ok d =>
      rw [hs] at h
      simp only [Prod.mk.injEq, and_true] at h
      subst h
      exact ⟨rfl, rfl⟩

/-- C17: a successful `upsertRating` on a well-formed state found the movie with
the given title; afterwards the movie rows and the enrichment rows are the same,
the rating rows of every other (movie id, rater id) pair are the same, the pair
has exactly one row, holding the submitted rating, and the number of rating rows
is one more when the pair had no row before and the same otherwise. -/
theorem upsertRating_frame (tx : Tx) (r : RatingResult) (now : String) (fl : Faults) (tx1 : Tx)
    (hwf : WellFormed tx.cur) (h : upsertRating tx r now fl = (tx1, none)) :
    ∃ movieID, selectMovieIdByTitle tx.cur r.MovieTitle = some movieID ∧
      tx1.base = tx.base ∧
      tx1.cur.movies = tx.cur.movies ∧
      tx1.cur.box_office = tx.cur.box_office ∧
      (tx1.cur.ratings.filter fun x => ¬ (x.movie_id = movieID ∧ x.rater_id = r.RaterID)) =
        (tx.cur.ratings.filter fun x => ¬ (x.movie_id = movieID ∧ x.rater_id = r.RaterID)) ∧
      ((tx1.cur.ratings.filter fun x => x.movie_id = movieID ∧ x.rater_id = r.RaterID).map
        (·.rating)) = [r.Rating] ∧
      tx1.cur.ratings.length = tx.cur.ratings.length +
        (if (tx.cur.ratings.filter fun x => x.movie_id = movieID ∧ x.rater_id = r.RaterID) = []
          then 1 else 0) := by
  obtain ⟨hbase, hstmt⟩ := upsertRating_ok tx r now fl tx1 h
  obtain ⟨mid, hmid, hmov, hbox, hrat⟩ := insertRatingOnConflictUpdate_ok _ _ _ _ _ _ hstmt
  have hle := ratings_key_count_le_one tx.cur.ratings mid r.RaterID hwf.2.2.2.2.1
  refine ⟨mid, hmid, hbase, hmov, hbox, ?_, ?_, ?_⟩
  · rw [hrat]
    split
    · exact filter_not_map_update _ _ _ _ _
    · simp
  · rw [hrat, ratings_after_upsert, max_eq_left hle]
    rfl
  · rw [hrat]
    by_cases hany : tx.cur.ratings.any (fun x => x.movie_id = mid && x.rater_id = r.RaterID) = true
    · have hne : (tx.cur.ratings.filter fun x => x.movie_id = mid ∧ x.rater_id = r.RaterID) ≠ [] := by
        rw [List.any_eq_true] at hany
        obtain ⟨x, hx, hp⟩ := hany
        intro hc
        have : x ∈ tx.cur.ratings.filter fun x => x.movie_id = mid ∧ x.rater_id = r.RaterID := by
          rw [List.mem_filter]
          exact ⟨hx, by simpa using hp⟩
        rw [hc] at this
        simp at this
      rw [if_pos hany, if_neg hne]
      simp
    · have hnil : (tx.cur.ratings.filter fun x => x.movie_id = mid ∧ x.rater_id = r.RaterID) = [] := by
        rw [List.filter_eq_nil_iff]
        intro x hx hp
        apply hany
        rw [List.any_eq_true]
        exact ⟨x, hx, by simpa using hp⟩
      rw [if_neg hany, if_pos hnil]
      simp

theorem wellFormed_ratedStore : WellFormed ratedStore := by
  refine ⟨by decide, by decide, by decide, by decide, by decide, by decide, ?_⟩
  intro r hr
  simp only [ratedStore, List.mem_cons, List.mem_singleton, List.not_mem_nil, or_false] at hr
  rcases hr with rfl | rfl | rfl <;> norm_num

/-- Witness for C17: in a store with three ratings for `Alpha`, `rater-1`
changes the rating from 1.0 to 3.0. -/
theorem upsertRating_frame_witness :
    WellFormed ratedStore ∧
    upsertRating ⟨ratedStore, ratedStore⟩ ⟨"Alpha", "rater-1", 3⟩ "t1" noFaults
      = (⟨ratedStore, ratedStoreAfter⟩, none) ∧
    ∃ movieID, selectMovieIdByTitle ratedStore "Alpha" = some movieID ∧
      ratedStore = ratedStore ∧
      ratedStoreAfter.movies = ratedStore.movies ∧
      ratedStoreAfter.box_office = ratedStore.box_office ∧
      (ratedStoreAfter.ratings.filter fun x => ¬ (x.movie_id = movieID ∧ x.rater_id = "rater-1")) =
        (ratedStore.ratings.filter fun x => ¬ (x.movie_id = movieID ∧ x.rater_id = "rater-1")) ∧
      ((ratedStoreAfter.ratings.filter fun x => x.movie_id = movieID ∧ x.rater_id = "rater-1").map
        (·.rating)) = [3] ∧
      ratedStoreAfter.ratings.length = ratedStore.ratings.length +
        (if (ratedStore.ratings.filter fun x => x.movie_id = movieID ∧ x.rater_id = "rater-1") = []
          then 1 else 0) :=
  have hrun : upsertRating ⟨ratedStore, ratedStore⟩ ⟨"Alpha", "rater-1", 3⟩ "t1" noFaults
      = (⟨ratedStore, ratedStoreAfter⟩, none) := by
    have hsel : selectMovieIdByTitle ratedStore "Alpha" = some "a" := by decide
    have hc : ¬ ((3 : ℚ) < 1 / 2 ∨ (3 : ℚ) > 5) := by norm_num
    have hany : ratedStore.ratings.any (fun r => r.movie_id = "a" && r.rater_id = "rater-1")
        = true := by decide
    simp only [upsertRating, Tx.ExecContext, noFaults, Bool.false_eq_true, if_false,
      insertRatingOnConflictUpdate, hsel, if_neg hc, hany, if_true]
    simp [ratedStore, ratedStoreAfter]
  ⟨wellFormed_ratedStore, hrun,
    upsertRating_frame ⟨ratedStore, ratedStore⟩ ⟨"Alpha", "rater-1", 3⟩ "t1" noFaults
      ⟨ratedStore, ratedStoreAfter⟩ wellFormed_ratedStore hrun⟩

/-! ## Input validation of `createMovie` -/

theorem utf8EncodeChar_ascii (c : Char) (h : c.toNat < 128) :
    String.utf8EncodeChar c = [c.val.toUInt8] := by
  have hv : c.val ≤ 127 := by
    rw [UInt32.le_def]
    change c.val.toNat ≤ 127
    have : c.val.toNat = c.toNat := rfl
    omega
  simp [String.utf8EncodeChar, hv]

theorem flatMap_utf8EncodeChar_ascii (l : List Char) (h : ∀ c ∈ l, c.toNat < 128) :
    l.flatMap String.utf8EncodeChar = l.map fun c => c.val.toUInt8 := by
  induction l with
  | nil => rfl
  | cons c cs ih =>
    rw [List.flatMap_cons, utf8EncodeChar_ascii c (h c (List.mem_cons_self _ _)),
      ih (fun d hd => h d (List.mem_cons_of_mem _ hd))]
    rfl

theorem ascii_byte_eq_hyphen (c : Char) (h : c.toNat < 128) :
    c.val.toUInt8 = 45 ↔ c = '-' := by
  constructor
  · intro hc
    have h1 : c.val.toUInt8.toNat = 45 := by rw [hc]; rfl
    have h2 : c.val.toUInt8.toNat = c.val.toNat % 256 := rfl
    have h3 : c.val.toNat = c.toNat := rfl
    have h4 : c.toNat = 45 := by omega
    rw [← Char.ofNat_toNat c, h4]
  · rintro rfl
    rfl

/-- For an ASCII string the byte test of `createMovie` on `releaseDate` is the
test on characters: length 10 and hyphens as fifth and eighth character. -/
theorem releaseDate_bytes_ascii (s : String) (h : ∀ c ∈ s.data, c.toNat < 128) :
    ((goBytes s).length ≠ 10 ∨ (goBytes s)[4]? ≠ some 45 ∨ (goBytes s)[7]? ≠ some 45) ↔
      (s.length ≠ 10 ∨ s.data[4]? ≠ some '-' ∨ s.data[7]? ≠ some '-') := by
  have hb : goBytes s = s.data.map fun c => c.val.toUInt8 :=
    flatMap_utf8EncodeChar_ascii s.data h
  have hidx : ∀ i : ℕ, (goBytes s)[i]? = some 45 ↔ s.data[i]? = some '-' := by
    intro i
    rw [hb, List.getElem?_map]
    cases hi : s.data[i]? with
    | none => simp
    | some c =>
      have hc : c ∈ s.data := by
        obtain ⟨hlt, he⟩ := List.getElem?_eq_some.1 hi
        exact he ▸ List.getElem_mem _
      simp only [Option.map_some', Option.some.injEq]
      exact ascii_byte_eq_hyphen c (h c hc)
  have hlen : (goBytes s).length = s.length := by
    rw [hb, List.length_map]
    rfl
  rw [hlen]
  simp only [ne_eq, hidx 4, hidx 7]

/-- C13 (counterexample): a candidate whose `releaseDate` has exactly ten
characters with hyphens as fifth and eighth character is rejected with 422, and
one whose `releaseDate` has nine characters is accepted: the test counts bytes. -/
theorem createMovie_validation_counts_bytes :
    (TrimSpace elevenBytePayload.Title ≠ "" ∧ TrimSpace elevenBytePayload.Genre ≠ "" ∧
      TrimSpace elevenBytePayload.ReleaseDate ≠ "" ∧
      elevenBytePayload.ReleaseDate.length = 10 ∧
      elevenBytePayload.ReleaseDate.data[4]? = some '-' ∧
      elevenBytePayload.ReleaseDate.data[7]? = some '-' ∧
      (createMovie emptyDB none elevenBytePayload "a" "t1" noFaults).2.status = 422) ∧
    (nineCharPayload.ReleaseDate.length = 9 ∧
      (createMovie emptyDB none nineCharPayload "a" "t1" noFaults).2.status = 201) := by
  decide

/-- C13 (amended): `createMovie` answers 422 exactly when the title, the genre or
the release date is empty after trimming white space, or the release date is
not exactly 10 bytes long with the hyphen as fifth and eighth byte; for an ASCII
release date that is: not exactly 10 characters with hyphens as fifth and eighth
character. When it answers 422 the store is returned as it is and the answer
does not depend on the upstream client, the clock or any store call. -/
theorem createMovie_validation (db : DB) (boxClient : Option BoxOfficeClient)
    (payload : MovieCreate) (id now : String) (fl : Faults) :
    ((createMovie db boxClient payload id now fl).2.status = 422 ↔
      (TrimSpace payload.Title = "" ∨ TrimSpace payload.Genre = "" ∨
        TrimSpace payload.ReleaseDate = "" ∨ (goBytes payload.ReleaseDate).length ≠ 10 ∨
        (goBytes payload.ReleaseDate)[4]? ≠ some 45 ∨
        (goBytes payload.ReleaseDate)[7]? ≠ some 45)) ∧
    ((∀ c ∈ payload.ReleaseDate.data, c.toNat < 128) →
      ((createMovie db boxClient payload id now fl).2.status = 422 ↔
        (TrimSpace payload.Title = "" ∨ TrimSpace payload.Genre = "" ∨
          TrimSpace payload.ReleaseDate = "" ∨ payload.ReleaseDate.length ≠ 10 ∨
          payload.ReleaseDate.data[4]? ≠ some '-' ∨
          payload.ReleaseDate.data[7]? ≠ some '-'))) ∧
    ((createMovie db boxClient payload id now fl).2.status = 422 →
      (createMovie db boxClient payload id now fl).1 = db ∧
      ∀ boxClient2 id2 now2 fl2,
        createMovie db boxClient2 payload id2 now2 fl2 =
          createMovie db boxClient payload id now fl) := by
  have key : ∀ (c : Option BoxOfficeClient) (i n : String) (f : Faults),
      ((createMovie db c payload i n f).2.status = 422 ↔
        (TrimSpace payload.Title = "" ∨ TrimSpace payload.Genre = "" ∨
          TrimSpace payload.ReleaseDate = "" ∨ (goBytes payload.ReleaseDate).length ≠ 10 ∨
          (goBytes payload.ReleaseDate)[4]? ≠ some 45 ∨
          (goBytes payload.ReleaseDate)[7]? ≠ some 45)) ∧
      ((createMovie db c payload i n f).2.status = 422 →
        (createMovie db c payload i n f = (db, ⟨422, .error "BAD_REQUEST"
            "title, genre and releaseDate are required", none⟩) ∧
          (TrimSpace payload.Title = "" ∨ TrimSpace payload.Genre = "" ∨
            TrimSpace payload.ReleaseDate = "")) ∨
        (createMovie db c payload i n f = (db, ⟨422, .error "BAD_REQUEST"
            "invalid releaseDate format", none⟩) ∧
          ¬ (TrimSpace payload.Title = "" ∨ TrimSpace payload.Genre = "" ∨
            TrimSpace payload.ReleaseDate = ""))) := by
    intro c i n f
    unfold createMovie
    by_cases h1 : TrimSpace payload.Title = "" ∨ TrimSpace payload.Genre = "" ∨
        TrimSpace payload.ReleaseDate = ""
    · rw [if_pos h1]
      refine ⟨⟨fun _ => ?_, fun _ => rfl⟩, fun _ => Or.inl ⟨rfl, h1⟩⟩
      tauto
    · rw [if_neg h1]
      by_cases h2 : (goBytes payload.ReleaseDate).length ≠ 10 ∨
          (goBytes payload.ReleaseDate)[4]? ≠ some 45 ∨
          (goBytes payload.ReleaseDate)[7]? ≠ some 45
      · rw [if_pos h2]
        refine ⟨⟨fun _ => ?_, fun _ => rfl⟩, fun _ => Or.inr ⟨rfl, h1⟩⟩
        tauto
      · rw [if_neg h2]
        have hne : ∀ x : DB × Option DbError,
            (match x with
              | (db1, some err) => ((db1, ⟨500, .internal err, none⟩) : DB × Response)
              | (db1, none) =>
                (db1, ⟨201, .movie (createMovie.movie c payload i),
                  some ("/movies/" ++ payload.Title)⟩)).2.status ≠ 422 := by
          rintro ⟨d, e⟩
          cases e <;> simp
        refine ⟨⟨fun h => absurd h (hne _), fun h => ?_⟩, fun h => absurd h (hne _)⟩
        tauto
  refine ⟨(key boxClient id now fl).1, fun hascii => ?_, fun h => ?_⟩
  · rw [(key boxClient id now fl).1, ← releaseDate_bytes_ascii payload.ReleaseDate hascii]
  · have hcond := (key boxClient id now fl).1.1 h
    have hsame : ∀ (c : Option BoxOfficeClient) (i n : String) (f : Faults),
        (createMovie db c payload i n f).2.status = 422 := fun c i n f =>
      (key c i n f).1.2 hcond
    rcases (key boxClient id now fl).2 h with ⟨he, ht⟩ | ⟨he, ht⟩
    · refine ⟨by rw [he], fun c i n f => ?_⟩
      rcases (key c i n f).2 (hsame c i n f) with ⟨he2, _⟩ | ⟨_, ht2⟩
      · rw [he, he2]
      · exact absurd ht ht2
    · refine ⟨by rw [he], fun c i n f => ?_⟩
      rcases (key c i n f).2 (hsame c i n f) with ⟨_, ht2⟩ | ⟨he2, _⟩
      · exact absurd ht2 ht
      · rw [he, he2]

/-- Witness for C13 (amended): an ASCII release date of the required shape that
is no calendar date is not rejected. -/
theorem createMovie_validation_witness :
    (∀ c ∈ noCalendarPayload.ReleaseDate.data, c.toNat < 128) ∧
    (createMovie emptyDB none noCalendarPayload "a" "t1" noFaults).2.status ≠ 422 :=
  ⟨by decide, fun h =>
    (by decide : ¬ (TrimSpace noCalendarPayload.Title = "" ∨
      TrimSpace noCalendarPayload.Genre = "" ∨ TrimSpace noCalendarPayload.ReleaseDate = "" ∨
      noCalendarPayload.ReleaseDate.length ≠ 10 ∨
      noCalendarPayload.ReleaseDate.data[4]? ≠ some '-' ∨
      noCalendarPayload.ReleaseDate.data[7]? ≠ some '-'))
      (((createMovie_validation emptyDB none noCalendarPayload "a" "t1" noFaults).2.1
        (by decide)).1 h)⟩

/-! ## Rating lookup by title -/

/-- `submitRating` after its three input checks and with a working first query:
the answer is decided by the lookup of the trimmed title. -/
theorem submitRating_checked (db : DB) (title raterID : String) (rating : ℚ) (now : String)
    (fl : Faults) (ht : (goBytes title).length ≠ 0) (hr : raterID ≠ "")
    (hv : ∃ k : ℕ, 1 ≤ k ∧ k ≤ 10 ∧ rating = k / 2) (hq : fl.query1 = false) :
    (selectMovieIdByTitle db (TrimSpace title) = none →
      submitRating db title raterID rating now fl =
        (db, ⟨404, .error "NOT_FOUND" "movie not found", none⟩)) ∧
    (selectMovieIdByTitle db (TrimSpace title) ≠ none →
      (submitRating db title raterID rating now fl).2.status ≠ 404) := by
  have hc := (rating_check_iff rating).2 hv
  unfold submitRating
  rw [if_neg ht]
  simp only
  rw [if_neg hr, if_neg hc]
  simp only [hq, Bool.false_eq_true, if_false]
  constructor
  · intro hs
    rw [hs]
  · intro hs
    cases hm : selectMovieIdByTitle db (TrimSpace title) with
    | none => exact absurd hm hs
    | some movieID =>
      simp only
      split
      · simp
      · split
        · simp
        · simp only
          split <;> simp

theorem selectMovieIdByTitle_eq_none_iff (db : DB) (title : String) :
    selectMovieIdByTitle db title = none ↔ ∀ m ∈ db.movies, m.title ≠ title := by
  simp [selectMovieIdByTitle, List.find?_eq_none]

/-- Under the unique title, the lookup finds the id of the movie with that title. -/
theorem selectMovieIdByTitle_of_mem (db : DB) (m : MovieRow) (hwf : WellFormed db)
    (hm : m ∈ db.movies) : selectMovieIdByTitle db m.title = some m.id := by
  have hnd := hwf.2.1
  unfold selectMovieIdByTitle
  generalize db.movies = L at hm hnd
  induction L with
  | nil => cases hm
  | cons a L ih =>
    rw [List.map_cons, List.nodup_cons] at hnd
    by_cases ha : a.title = m.title
    · have : a = m := by
        rcases List.mem_cons.1 hm with h | h
        · exact h.symm
        · exact absurd (ha ▸ List.mem_map_of_mem (·.title) h) hnd.1
      simp [List.find?_cons, this]
    · have hm2 : m ∈ L := by
        rcases List.mem_cons.1 hm with h | h
        · exact absurd (h ▸ rfl) ha
        · exact h
      simp only [List.find?_cons, ha, decide_False]
      exact ih hm2 hnd.2

/-! ## `float64` rounding -/

theorem roundHalfEven_of_near (q : ℚ) (z : ℤ) (h : |q - z| < 1 / 2) : roundHalfEven q = z := by
  rw [abs_lt] at h
  unfold roundHalfEven
  by_cases hz : (z : ℚ) ≤ q
  · have hf : ⌊q⌋ = z := by
      rw [Int.floor_eq_iff]
      constructor
      · exact hz
      · linarith
    rw [hf, if_pos (by linarith)]
  · have hf : ⌊q⌋ = z - 1 := by
      rw [Int.floor_eq_iff]
      push_cast
      constructor
      · linarith
      · linarith
    rw [hf]
    push_cast
    rw [if_neg (by linarith), if_pos (by linarith)]
    ring

theorem roundHalfEven_error (q : ℚ) : |(roundHalfEven q : ℚ) - q| ≤ 1 / 2 := by
  have h1 := Int.floor_le q
  have h2 := Int.lt_floor_add_one q
  unfold roundHalfEven
  rw [abs_le]
  split
  · constructor <;> linarith
  · split
    · push_cast
      constructor <;> linarith
    · split
      · constructor <;> linarith
      · push_cast
        constructor <;> linarith

/-- The exponent `fl64` uses for a positive value. -/
theorem log_two_eq (q : ℚ) (e : ℤ) (h1 : (2 : ℚ) ^ e ≤ q) (h2 : q < (2 : ℚ) ^ (e + 1)) :
    Int.log 2 |q| = e := by
  have hpos : 0 < q := lt_of_lt_of_le (by positivity) h1
  rw [abs_of_pos hpos]
  have ha : e ≤ Int.log 2 q := (Int.zpow_le_iff_le_log (by norm_num) hpos).1 (by exact_mod_cast h1)
  have hb : Int.log 2 q < e + 1 :=
    (Int.lt_zpow_iff_log_lt (by norm_num) hpos).1 (by exact_mod_cast h2)
  omega

/-- Evaluation of `fl64` on a value whose scaled form is within 1/2 of an integer. -/
theorem fl64_eval (q : ℚ) (j : ℕ) (z : ℤ) (h1 : (2 : ℚ) ^ 52 ≤ q * 2 ^ j)
    (h2 : q * 2 ^ j < 2 ^ 53) (h3 : |q * 2 ^ j - z| < 1 / 2) : fl64 q = z / 2 ^ j := by
  have hj : (0 : ℚ) < 2 ^ j := by positivity
  have hpos : 0 < q := by
    by_contra hc
    have : q * 2 ^ j ≤ 0 := mul_nonpos_of_nonpos_of_nonneg (not_lt.1 hc) hj.le
    have : (0 : ℚ) < 2 ^ 52 := by positivity
    linarith
  have hzp : (2 : ℚ) ^ ((52 : ℤ) - j) = 2 ^ 52 / 2 ^ j := by
    rw [zpow_sub₀ (by norm_num)]
    norm_cast
  have hzp1 : (2 : ℚ) ^ ((52 : ℤ) - j + 1) = 2 ^ 53 / 2 ^ j := by
    rw [zpow_add₀ (by norm_num), hzp]
    ring
  have hlog : Int.log 2 |q| = 52 - j := by
    apply log_two_eq
    · rw [hzp, div_le_iff₀ hj]
      exact h1
    · rw [hzp1, lt_div_iff₀ hj]
      exact h2
  have hs : (2 : ℚ) ^ ((52 : ℤ) - j - 52) = 1 / 2 ^ j := by
    have : (52 : ℤ) - j - 52 = -(j : ℤ) := by ring
    rw [this, zpow_neg]
    norm_cast
    simp
  unfold fl64
  rw [if_neg hpos.ne', hlog, hs]
  have hq : q / (1 / 2 ^ j) = q * 2 ^ j := by
    field_simp
  rw [hq, roundHalfEven_of_near _ z h3]
  ring

/-- The relative error of rounding to `float64` is at most `2 ^ -53`. -/
theorem fl64_error (q : ℚ) (hq : 0 < q) : |fl64 q - q| ≤ q / 2 ^ 53 := by
  have hs : (0 : ℚ) < 2 ^ (Int.log 2 |q| - 52) := by positivity
  have hle : (2 : ℚ) ^ Int.log 2 |q| ≤ q := by
    rw [abs_of_pos hq]
    exact_mod_cast Int.zpow_log_le_self (b := 2) (by norm_num) hq
  have hsplit : (2 : ℚ) ^ (Int.log 2 |q| - 52) = 2 ^ Int.log 2 |q| / 2 ^ 52 := by
    rw [zpow_sub₀ (by norm_num)]
    norm_cast
  unfold fl64
  rw [if_neg hq.ne']
  have hr := roundHalfEven_error (q / 2 ^ (Int.log 2 |q| - 52))
  have he : (roundHalfEven (q / 2 ^ (Int.log 2 |q| - 52)) : ℚ) * 2 ^ (Int.log 2 |q| - 52) - q
      = ((roundHalfEven (q / 2 ^ (Int.log 2 |q| - 52)) : ℚ) - q / 2 ^ (Int.log 2 |q| - 52))
        * 2 ^ (Int.log 2 |q| - 52) := by
    field_simp
  rw [he, abs_mul, abs_of_pos hs]
  calc |(roundHalfEven (q / 2 ^ (Int.log 2 |q| - 52)) : ℚ) - q / 2 ^ (Int.log 2 |q| - 52)|
          * 2 ^ (Int.log 2 |q| - 52)
        ≤ 1 / 2 * 2 ^ (Int.log 2 |q| - 52) := mul_le_mul_of_nonneg_right hr hs.le
    _ = 2 ^ Int.log 2 |q| / 2 ^ 53 := by rw [hsplit]; ring
    _ ≤ q / 2 ^ 53 := div_le_div_of_nonneg_right hle (by positivity)

/-- A positive half-integer below `2 ^ 52` is a `float64`. -/
theorem fl64_half_integer (z : ℤ) (hz : 0 < z) (hlt : (z : ℚ) / 2 < 2 ^ 52) :
    fl64 (z / 2) = z / 2 := by
  have hq : (0 : ℚ) < z / 2 := by
    have : (0 : ℚ) < z := by exact_mod_cast hz
    positivity
  have h1 : (1 : ℚ) ≤ z := by exact_mod_cast hz
  have hlo : -1 ≤ Int.log 2 |(z : ℚ) / 2| := by
    rw [abs_of_pos hq]
    apply (Int.zpow_le_iff_le_log (b := 2) (by norm_num) hq).1
    norm_num
    linarith
  have hhi : Int.log 2 |(z : ℚ) / 2| < 52 := by
    rw [abs_of_pos hq]
    apply (Int.lt_zpow_iff_log_lt (b := 2) (by norm_num) hq).1
    exact_mod_cast hlt
  obtain ⟨k, hk⟩ : ∃ k : ℕ, (k : ℤ) = 51 - Int.log 2 |(z : ℚ) / 2| :=
    ⟨(51 - Int.log 2 |(z : ℚ) / 2|).toNat, Int.toNat_of_nonneg (by omega)⟩
  have he : Int.log 2 |(z : ℚ) / 2| - 52 = -(k : ℤ) - 1 := by omega
  have hs : (2 : ℚ) ^ (Int.log 2 |(z : ℚ) / 2| - 52) = 1 / (2 ^ k * 2) := by
    rw [he, zpow_sub₀ (by norm_num), zpow_neg, zpow_natCast]
    field_simp
  unfold fl64
  rw [if_neg hq.ne', hs]
  have hint : (z : ℚ) / 2 / (1 / (2 ^ k * 2)) = ((z * 2 ^ k : ℤ) : ℚ) := by
    push_cast
    field_simp
    ring
  rw [hint, roundHalfEven_of_near _ (z * 2 ^ k) (by simp)]
  push_cast
  field_simp
  ring

theorem roundHalfEven_of_tie (q : ℚ) (z : ℤ) (h : q = z + 1 / 2) :
    roundHalfEven q = if z % 2 = 0 then z else z + 1 := by
  have hf : ⌊q⌋ = z := by
    rw [Int.floor_eq_iff]
    constructor <;> linarith
  unfold roundHalfEven
  rw [hf, if_neg (by linarith), if_neg (by linarith)]

/-- Evaluation of `fl64` on a value whose scaled form is halfway between two integers. -/
theorem fl64_eval_tie (q : ℚ) (j : ℕ) (z w : ℤ) (h1 : (2 : ℚ) ^ 52 ≤ q * 2 ^ j)
    (h2 : q * 2 ^ j < 2 ^ 53) (h3 : q * 2 ^ j = z + 1 / 2)
    (hw : w = if z % 2 = 0 then z else z + 1) : fl64 q = w / 2 ^ j := by
  have hj : (0 : ℚ) < 2 ^ j := by positivity
  have hpos : 0 < q := by
    by_contra hc
    have : q * 2 ^ j ≤ 0 := mul_nonpos_of_nonpos_of_nonneg (not_lt.1 hc) hj.le
    have : (0 : ℚ) < 2 ^ 52 := by positivity
    linarith
  have hzp : (2 : ℚ) ^ ((52 : ℤ) - j) = 2 ^ 52 / 2 ^ j := by
    rw [zpow_sub₀ (by norm_num)]
    norm_cast
  have hzp1 : (2 : ℚ) ^ ((52 : ℤ) - j + 1) = 2 ^ 53 / 2 ^ j := by
    rw [zpow_add₀ (by norm_num), hzp]
    ring
  have hlog : Int.log 2 |q| = 52 - j := by
    apply log_two_eq
    · rw [hzp, div_le_iff₀ hj]
      exact h1
    · rw [hzp1, lt_div_iff₀ hj]
      exact h2
  have hs : (2 : ℚ) ^ ((52 : ℤ) - j - 52) = 1 / 2 ^ j := by
    have : (52 : ℤ) - j - 52 = -(j : ℤ) := by ring
    rw [this, zpow_neg]
    norm_cast
    simp
  unfold fl64
  rw [if_neg hpos.ne', hlog, hs]
  have hq : q / (1 / 2 ^ j) = q * 2 ^ j := by
    field_simp
  rw [hq, roundHalfEven_of_tie _ z h3, ← hw]
  ring

/-- When ten times the mean is a half-integer, the two `float64` operations
`avg`, `avg * 10` reproduce it exactly. -/
theorem fl64_tie (K : ℕ) (h1 : 6 ≤ K) (h2 : K ≤ 50) :
    fl64 (fl64 ((2 * (K : ℚ) - 1) / 20) * 10) = (2 * (K : ℚ) - 1) / 2 := by
  interval_cases K
  · have ha : fl64 (11 / 20) = 4953959590107546 / 2 ^ 53 :=
      fl64_eval _ 53 4953959590107546 (by norm_num) (by norm_num) (by rw [abs_lt]; norm_num)
    have hb : fl64 (4953959590107546 / 2 ^ 53 * 10) = 6192449487634432 / 2 ^ 50 :=
      fl64_eval_tie _ 50 6192449487634432 6192449487634432 (by norm_num) (by norm_num) (by norm_num) (by decide)
    norm_num at ha hb ⊢
    rw [ha]
    norm_num
    rw [hb]
  · have ha : fl64 (13 / 20) = 5854679515581645 / 2 ^ 53 :=
      fl64_eval _ 53 5854679515581645 (by norm_num) (by norm_num) (by rw [abs_lt]; norm_num)
    have hb : fl64 (5854679515581645 / 2 ^ 53 * 10) = 7318349394477056 / 2 ^ 50 :=
      fl64_eval _ 50 7318349394477056 (by norm_num) (by norm_num) (by rw [abs_lt]; norm_num)
    norm_num at ha hb ⊢
    rw [ha]
    norm_num
    rw [hb]
  · have ha : fl64 (3 / 4) = 6755399441055744 / 2 ^ 53 :=
      fl64_eval _ 53 6755399441055744 (by norm_num) (by norm_num) (by rw [abs_lt]; norm_num)
    have hb : fl64 (6755399441055744 / 2 ^ 53 * 10) = 8444249301319680 / 2 ^ 50 :=
      fl64_eval _ 50 8444249301319680 (by norm_num) (by norm_num) (by rw [abs_lt]; norm_num)
    norm_num at ha hb ⊢
    rw [ha]
    norm_num
    rw [hb]
  · have ha : fl64 (17 / 20) = 7656119366529843 / 2 ^ 53 :=
      fl64_eval _ 53 7656119366529843 (by norm_num) (by norm_num) (by rw [abs_lt]; norm_num)
    have hb : fl64 (7656119366529843 / 2 ^ 53 * 10) = 4785074604081152 / 2 ^ 49 :=
      fl64_eval _ 49 4785074604081152 (by norm_num) (by norm_num) (by rw [abs_lt]; norm_num)
    norm_num at ha hb ⊢
    rw [ha]
    norm_num
    rw [hb]
  · have ha : fl64 (19 / 20) = 8556839292003942 / 2 ^ 53 :=
      fl64_eval _ 53 8556839292003942 (by norm_num) (by norm_num) (by rw [abs_lt]; norm_num)
    have hb : fl64 (8556839292003942 / 2 ^ 53 * 10) = 5348024557502464 / 2 ^ 49 :=
      fl64_eval _ 49 5348024557502464 (by norm_num) (by norm_num) (by rw [abs_lt]; norm_num)
    norm_num at ha hb ⊢
    rw [ha]
    norm_num
    rw [hb]
  · have ha : fl64 (21 / 20) = 4728779608739021 / 2 ^ 52 :=
      fl64_eval _ 52 4728779608739021 (by norm_num) (by norm_num) (by rw [abs_lt]; norm_num)
    have hb : fl64 (4728779608739021 / 2 ^ 52 * 10) = 5910974510923776 / 2 ^ 49 :=
      fl64_eval _ 49 5910974510923776 (by norm_num) (by norm_num) (by rw [abs_lt]; norm_num)
    norm_num at ha hb ⊢
    rw [ha]
    norm_num
    rw [hb]
  · have ha : fl64 (23 / 20) = 5179139571476070 / 2 ^ 52 :=
      fl64_eval _ 52 5179139571476070 (by norm_num) (by norm_num) (by rw [abs_lt]; norm_num)
    have hb : fl64 (5179139571476070 / 2 ^ 52 * 10) = 6473924464345088 / 2 ^ 49 :=
      fl64_eval_tie _ 49 6473924464345087 6473924464345088 (by norm_num) (by norm_num) (by norm_num) (by decide)
    norm_num at ha hb ⊢
    rw [ha]
    norm_num
    rw [hb]
  · have ha : fl64 (5 / 4) = 5629499534213120 / 2 ^ 52 :=
      fl64_eval _ 52 5629499534213120 (by norm_num) (by norm_num) (by rw [abs_lt]; norm_num)
    have hb : fl64 (5629499534213120 / 2 ^ 52 * 10) = 7036874417766400 / 2 ^ 49 :=
      fl64_eval _ 49 7036874417766400 (by norm_num) (by norm_num) (by rw [abs_lt]; norm_num)
    norm_num at ha hb ⊢
    rw [ha]
    norm_num
    rw [hb]
  · have ha : fl64 (27 / 20) = 6079859496950170 / 2 ^ 52 :=
      fl64_eval _ 52 6079859496950170 (by norm_num) (by norm_num) (by rw [abs_lt]; norm_num)
    have hb : fl64 (6079859496950170 / 2 ^ 52 * 10) = 7599824371187712 / 2 ^ 49 :=
      fl64_eval_tie _ 49 7599824371187712 7599824371187712 (by norm_num) (by norm_num) (by norm_num) (by decide)
    norm_num at ha hb ⊢
    rw [ha]
    norm_num
    rw [hb]
  · have ha : fl64 (29 / 20) = 6530219459687219 / 2 ^ 52 :=
      fl64_eval _ 52 6530219459687219 (by norm_num) (by norm_num) (by rw [abs_lt]; norm_num)
    have hb : fl64 (6530219459687219 / 2 ^ 52 * 10) = 8162774324609024 / 2 ^ 49 :=
      fl64_eval _ 49 8162774324609024 (by norm_num) (by norm_num) (by rw [abs_lt]; norm_num)
    norm_num at ha hb ⊢
    rw [ha]
    norm_num
    rw [hb]
  · have ha : fl64 (31 / 20) = 6980579422424269 / 2 ^ 52 :=
      fl64_eval _ 52 6980579422424269 (by norm_num) (by norm_num) (by rw [abs_lt]; norm_num)
    have hb : fl64 (6980579422424269 / 2 ^ 52 * 10) = 8725724278030336 / 2 ^ 49 :=
      fl64_eval _ 49 8725724278030336 (by norm_num) (by norm_num) (by rw [abs_lt]; norm_num)
    norm_num at ha hb ⊢
    rw [ha]
    norm_num
    rw [hb]
  · have ha : fl64 (33 / 20) = 7430939385161318 / 2 ^ 52 :=
      fl64_eval _ 52 7430939385161318 (by norm_num) (by norm_num) (by rw [abs_lt]; norm_num)
    have hb : fl64 (7430939385161318 / 2 ^ 52 * 10) = 4644337115725824 / 2 ^ 48 :=
      fl64_eval _ 48 4644337115725824 (by norm_num) (by norm_num) (by rw [abs_lt]; norm_num)
    norm_num at ha hb ⊢
    rw [ha]
    norm_num
    rw [hb]
  · have ha : fl64 (7 / 4) = 7881299347898368 / 2 ^ 52 :=
      fl64_eval _ 52 7881299347898368 (by norm_num) (by norm_num) (by rw [abs_lt]; norm_num)
    have hb : fl64 (7881299347898368 / 2 ^ 52 * 10) = 4925812092436480 / 2 ^ 48 :=
      fl64_eval _ 48 4925812092436480 (by norm_num) (by norm_num) (by rw [abs_lt]; norm_num)
    norm_num at ha hb ⊢
    rw [ha]
    norm_num
    rw [hb]
  · have ha : fl64 (37 / 20) = 8331659310635418 / 2 ^ 52 :=
      fl64_eval _ 52 8331659310635418 (by norm_num) (by norm_num) (by rw [abs_lt]; norm_num)
    have hb : fl64 (8331659310635418 / 2 ^ 52 * 10) = 5207287069147136 / 2 ^ 48 :=
      fl64_eval _ 48 5207287069147136 (by norm_num) (by norm_num) (by rw [abs_lt]; norm_num)
    norm_num at ha hb ⊢
    rw [ha]
    norm_num
    rw [hb]
  · have ha : fl64 (39 / 20) = 8782019273372467 / 2 ^ 52 :=
      fl64_eval _ 52 8782019273372467 (by norm_num) (by norm_num) (by rw [abs_lt]; norm_num)
    have hb : fl64 (8782019273372467 / 2 ^ 52 * 10) = 5488762045857792 / 2 ^ 48 :=
      fl64_eval _ 48 5488762045857792 (by norm_num) (by norm_num) (by rw [abs_lt]; norm_num)
    norm_num at ha hb ⊢
    rw [ha]
    norm_num
    rw [hb]
  · have ha : fl64 (41 / 20) = 4616189618054758 / 2 ^ 51 :=
      fl64_eval _ 51 4616189618054758 (by norm_num) (by norm_num) (by rw [abs_lt]; norm_num)
    have hb : fl64 (4616189618054758 / 2 ^ 51 * 10) = 5770237022568448 / 2 ^ 48 :=
      fl64_eval_tie _ 48 5770237022568447 5770237022568448 (by norm_num) (by norm_num) (by norm_num) (by decide)
    norm_num at ha hb ⊢
    rw [ha]
    norm_num
    rw [hb]
  · have ha : fl64 (43 / 20) = 4841369599423283 / 2 ^ 51 :=
      fl64_eval _ 51 4841369599423283 (by norm_num) (by norm_num) (by rw [abs_lt]; norm_num)
    have hb : fl64 (4841369599423283 / 2 ^ 51 * 10) = 6051711999279104 / 2 ^ 48 :=
      fl64_eval _ 48 6051711999279104 (by norm_num) (by norm_num) (by rw [abs_lt]; norm_num)
    norm_num at ha hb ⊢
    rw [ha]
    norm_num
    rw [hb]
  · have ha : fl64 (9 / 4) = 5066549580791808 / 2 ^ 51 :=
      fl64_eval _ 51 5066549580791808 (by norm_num) (by norm_num) (by rw [abs_lt]; norm_num)
    have hb : fl64 (5066549580791808 / 2 ^ 51 * 10) = 6333186975989760 / 2 ^ 48 :=
      fl64_eval _ 48 6333186975989760 (by norm_num) (by norm_num) (by rw [abs_lt]; norm_num)
    norm_num at ha hb ⊢
    rw [ha]
    norm_num
    rw [hb]
  · have ha : fl64 (47 / 20) = 5291729562160333 / 2 ^ 51 :=
      fl64_eval _ 51 5291729562160333 (by norm_num) (by norm_num) (by rw [abs_lt]; norm_num)
    have hb : fl64 (5291729562160333 / 2 ^ 51 * 10) = 6614661952700416 / 2 ^ 48 :=
      fl64_eval _ 48 6614661952700416 (by norm_num) (by norm_num) (by rw [abs_lt]; norm_num)
    norm_num at ha hb ⊢
    rw [ha]
    norm_num
    rw [hb]
  · have ha : fl64 (49 / 20) = 5516909543528858 / 2 ^ 51 :=
      fl64_eval _ 51 5516909543528858 (by norm_num) (by norm_num) (by rw [abs_lt]; norm_num)
    have hb : fl64 (5516909543528858 / 2 ^ 51 * 10) = 6896136929411072 / 2 ^ 48 :=
      fl64_eval_tie _ 48 6896136929411072 6896136929411072 (by norm_num) (by norm_num) (by norm_num) (by decide)
    norm_num at ha hb ⊢
    rw [ha]
    norm_num
    rw [hb]
  · have ha : fl64 (51 / 20) = 5742089524897382 / 2 ^ 51 :=
      fl64_eval _ 51 5742089524897382 (by norm_num) (by norm_num) (by rw [abs_lt]; norm_num)
    have hb : fl64 (5742089524897382 / 2 ^ 51 * 10) = 7177611906121728 / 2 ^ 48 :=
      fl64_eval_tie _ 48 7177611906121727 7177611906121728 (by norm_num) (by norm_num) (by norm_num) (by decide)
    norm_num at ha hb ⊢
    rw [ha]
    norm_num
    rw [hb]
  · have ha : fl64 (53 / 20) = 5967269506265907 / 2 ^ 51 :=
      fl64_eval _ 51 5967269506265907 (by norm_num) (by norm_num) (by rw [abs_lt]; norm_num)
    have hb : fl64 (5967269506265907 / 2 ^ 51 * 10) = 7459086882832384 / 2 ^ 48 :=
      fl64_eval _ 48 7459086882832384 (by norm_num) (by norm_num) (by rw [abs_lt]; norm_num)
    norm_num at ha hb ⊢
    rw [ha]
    norm_num
    rw [hb]
  · have ha : fl64 (11 / 4) = 6192449487634432 / 2 ^ 51 :=
      fl64_eval _ 51 6192449487634432 (by norm_num) (by norm_num) (by rw [abs_lt]; norm_num)
    have hb : fl64 (6192449487634432 / 2 ^ 51 * 10) = 7740561859543040 / 2 ^ 48 :=
      fl64_eval _ 48 7740561859543040 (by norm_num) (by norm_num) (by rw [abs_lt]; norm_num)
    norm_num at ha hb ⊢
    rw [ha]
    norm_num
    rw [hb]
  · have ha : fl64 (57 / 20) = 6417629469002957 / 2 ^ 51 :=
      fl64_eval _ 51 6417629469002957 (by norm_num) (by norm_num) (by rw [abs_lt]; norm_num)
    have hb : fl64 (6417629469002957 / 2 ^ 51 * 10) = 8022036836253696 / 2 ^ 48 :=
      fl64_eval _ 48 8022036836253696 (by norm_num) (by norm_num) (by rw [abs_lt]; norm_num)
    norm_num at ha hb ⊢
    rw [ha]
    norm_num
    rw [hb]
  · have ha : fl64 (59 / 20) = 6642809450371482 / 2 ^ 51 :=
      fl64_eval _ 51 6642809450371482 (by norm_num) (by norm_num) (by rw [abs_lt]; norm_num)
    have hb : fl64 (6642809450371482 / 2 ^ 51 * 10) = 8303511812964352 / 2 ^ 48 :=
      fl64_eval_tie _ 48 8303511812964352 8303511812964352 (by norm_num) (by norm_num) (by norm_num) (by decide)
    norm_num at ha hb ⊢
    rw [ha]
    norm_num
    rw [hb]
  · have ha : fl64 (61 / 20) = 6867989431740006 / 2 ^ 51 :=
      fl64_eval _ 51 6867989431740006 (by norm_num) (by norm_num) (by rw [abs_lt]; norm_num)
    have hb : fl64 (6867989431740006 / 2 ^ 51 * 10) = 8584986789675008 / 2 ^ 48 :=
      fl64_eval_tie _ 48 8584986789675007 8584986789675008 (by norm_num) (by norm_num) (by norm_num) (by decide)
    norm_num at ha hb ⊢
    rw [ha]
    norm_num
    rw [hb]
  · have ha : fl64 (63 / 20) = 7093169413108531 / 2 ^ 51 :=
      fl64_eval _ 51 7093169413108531 (by norm_num) (by norm_num) (by rw [abs_lt]; norm_num)
    have hb : fl64 (7093169413108531 / 2 ^ 51 * 10) = 8866461766385664 / 2 ^ 48 :=
      fl64_eval _ 48 8866461766385664 (by norm_num) (by norm_num) (by rw [abs_lt]; norm_num)
    norm_num at ha hb ⊢
    rw [ha]
    norm_num
    rw [hb]
  · have ha : fl64 (13 / 4) = 7318349394477056 / 2 ^ 51 :=
      fl64_eval _ 51 7318349394477056 (by norm_num) (by norm_num) (by rw [abs_lt]; norm_num)
    have hb : fl64 (7318349394477056 / 2 ^ 51 * 10) = 4573968371548160 / 2 ^ 47 :=
      fl64_eval _ 47 4573968371548160 (by norm_num) (by norm_num) (by rw [abs_lt]; norm_num)
    norm_num at ha hb ⊢
    rw [ha]
    norm_num
    rw [hb]
  · have ha : fl64 (67 / 20) = 7543529375845581 / 2 ^ 51 :=
      fl64_eval _ 51 7543529375845581 (by norm_num) (by norm_num) (by rw [abs_lt]; norm_num)
    have hb : fl64 (7543529375845581 / 2 ^ 51 * 10) = 4714705859903488 / 2 ^ 47 :=
      fl64_eval _ 47 4714705859903488 (by norm_num) (by norm_num) (by rw [abs_lt]; norm_num)
    norm_num at ha hb ⊢
    rw [ha]
    norm_num
    rw [hb]
  · have ha : fl64 (69 / 20) = 7768709357214106 / 2 ^ 51 :=
      fl64_eval _ 51 7768709357214106 (by norm_num) (by norm_num) (by rw [abs_lt]; norm_num)
    have hb : fl64 (7768709357214106 / 2 ^ 51 * 10) = 4855443348258816 / 2 ^ 47 :=
      fl64_eval _ 47 4855443348258816 (by norm_num) (by norm_num) (by rw [abs_lt]; norm_num)
    norm_num at ha hb ⊢
    rw [ha]
    norm_num
    rw [hb]
  · have ha : fl64 (71 / 20) = 7993889338582630 / 2 ^ 51 :=
      fl64_eval _ 51 7993889338582630 (by norm_num) (by norm_num) (by rw [abs_lt]; norm_num)
    have hb : fl64 (7993889338582630 / 2 ^ 51 * 10) = 4996180836614144 / 2 ^ 47 :=
      fl64_eval _ 47 4996180836614144 (by norm_num) (by norm_num) (by rw [abs_lt]; norm_num)
    norm_num at ha hb ⊢
    rw [ha]
    norm_num
    rw [hb]
  · have ha : fl64 (73 / 20) = 8219069319951155 / 2 ^ 51 :=
      fl64_eval _ 51 8219069319951155 (by norm_num) (by norm_num) (by rw [abs_lt]; norm_num)
    have hb : fl64 (8219069319951155 / 2 ^ 51 * 10) = 5136918324969472 / 2 ^ 47 :=
      fl64_eval _ 47 5136918324969472 (by norm_num) (by norm_num) (by rw [abs_lt]; norm_num)
    norm_num at ha hb ⊢
    rw [ha]
    norm_num
    rw [hb]
  · have ha : fl64 (15 / 4) = 8444249301319680 / 2 ^ 51 :=
      fl64_eval _ 51 8444249301319680 (by norm_num) (by norm_num) (by rw [abs_lt]; norm_num)
    have hb : fl64 (8444249301319680 / 2 ^ 51 * 10) = 5277655813324800 / 2 ^ 47 :=
      fl64_eval _ 47 5277655813324800 (by norm_num) (by norm_num) (by rw [abs_lt]; norm_num)
    norm_num at ha hb ⊢
    rw [ha]
    norm_num
    rw [hb]
  · have ha : fl64 (77 / 20) = 8669429282688205 / 2 ^ 51 :=
      fl64_eval _ 51 8669429282688205 (by norm_num) (by norm_num) (by rw [abs_lt]; norm_num)
    have hb : fl64 (8669429282688205 / 2 ^ 51 * 10) = 5418393301680128 / 2 ^ 47 :=
      fl64_eval _ 47 5418393301680128 (by norm_num) (by norm_num) (by rw [abs_lt]; norm_num)
    norm_num at ha hb ⊢
    rw [ha]
    norm_num
    rw [hb]
  · have ha : fl64 (79 / 20) = 8894609264056730 / 2 ^ 51 :=
      fl64_eval _ 51 8894609264056730 (by norm_num) (by norm_num) (by rw [abs_lt]; norm_num)
    have hb : fl64 (8894609264056730 / 2 ^ 51 * 10) = 5559130790035456 / 2 ^ 47 :=
      fl64_eval _ 47 5559130790035456 (by norm_num) (by norm_num) (by rw [abs_lt]; norm_num)
    norm_num at ha hb ⊢
    rw [ha]
    norm_num
    rw [hb]
  · have ha : fl64 (81 / 20) = 4559894622712627 / 2 ^ 50 :=
      fl64_eval _ 50 4559894622712627 (by norm_num) (by norm_num) (by rw [abs_lt]; norm_num)
    have hb : fl64 (4559894622712627 / 2 ^ 50 * 10) = 5699868278390784 / 2 ^ 47 :=
      fl64_eval _ 47 5699868278390784 (by norm_num) (by norm_num) (by rw [abs_lt]; norm_num)
    norm_num at ha hb ⊢
    rw [ha]
    norm_num
    rw [hb]
  · have ha : fl64 (83 / 20) = 4672484613396890 / 2 ^ 50 :=
      fl64_eval _ 50 4672484613396890 (by norm_num) (by norm_num) (by rw [abs_lt]; norm_num)
    have hb : fl64 (4672484613396890 / 2 ^ 50 * 10) = 5840605766746112 / 2 ^ 47 :=
      fl64_eval_tie _ 47 5840605766746112 5840605766746112 (by norm_num) (by norm_num) (by norm_num) (by decide)
    norm_num at ha hb ⊢
    rw [ha]
    norm_num
    rw [hb]
  · have ha : fl64 (17 / 4) = 4785074604081152 / 2 ^ 50 :=
      fl64_eval _ 50 4785074604081152 (by norm_num) (by norm_num) (by rw [abs_lt]; norm_num)
    have hb : fl64 (4785074604081152 / 2 ^ 50 * 10) = 5981343255101440 / 2 ^ 47 :=
      fl64_eval _ 47 5981343255101440 (by norm_num) (by norm_num) (by rw [abs_lt]; norm_num)
    norm_num at ha hb ⊢
    rw [ha]
    norm_num
    rw [hb]
  · have ha : fl64 (87 / 20) = 4897664594765414 / 2 ^ 50 :=
      fl64_eval _ 50 4897664594765414 (by norm_num) (by norm_num) (by rw [abs_lt]; norm_num)
    have hb : fl64 (4897664594765414 / 2 ^ 50 * 10) = 6122080743456768 / 2 ^ 47 :=
      fl64_eval_tie _ 47 6122080743456767 6122080743456768 (by norm_num) (by norm_num) (by norm_num) (by decide)
    norm_num at ha hb ⊢
    rw [ha]
    norm_num
    rw [hb]
  · have ha : fl64 (89 / 20) = 5010254585449677 / 2 ^ 50 :=
      fl64_eval _ 50 5010254585449677 (by norm_num) (by norm_num) (by rw [abs_lt]; norm_num)
    have hb : fl64 (5010254585449677 / 2 ^ 50 * 10) = 6262818231812096 / 2 ^ 47 :=
      fl64_eval _ 47 6262818231812096 (by norm_num) (by norm_num) (by rw [abs_lt]; norm_num)
    norm_num at ha hb ⊢
    rw [ha]
    norm_num
    rw [hb]
  · have ha : fl64 (91 / 20) = 5122844576133939 / 2 ^ 50 :=
      fl64_eval _ 50 5122844576133939 (by norm_num) (by norm_num) (by rw [abs_lt]; norm_num)
    have hb : fl64 (5122844576133939 / 2 ^ 50 * 10) = 6403555720167424 / 2 ^ 47 :=
      fl64_eval _ 47 6403555720167424 (by norm_num) (by norm_num) (by rw [abs_lt]; norm_num)
    norm_num at ha hb ⊢
    rw [ha]
    norm_num
    rw [hb]
  · have ha : fl64 (93 / 20) = 5235434566818202 / 2 ^ 50 :=
      fl64_eval _ 50 5235434566818202 (by norm_num) (by norm_num) (by rw [abs_lt]; norm_num)
    have hb : fl64 (5235434566818202 / 2 ^ 50 * 10) = 6544293208522752 / 2 ^ 47 :=
      fl64_eval_tie _ 47 6544293208522752 6544293208522752 (by norm_num) (by norm_num) (by norm_num) (by decide)
    norm_num at ha hb ⊢
    rw [ha]
    norm_num
    rw [hb]
  · have ha : fl64 (19 / 4) = 5348024557502464 / 2 ^ 50 :=
      fl64_eval _ 50 5348024557502464 (by norm_num) (by norm_num) (by rw [abs_lt]; norm_num)
    have hb : fl64 (5348024557502464 / 2 ^ 50 * 10) = 6685030696878080 / 2 ^ 47 :=
      fl64_eval _ 47 6685030696878080 (by norm_num) (by norm_num) (by rw [abs_lt]; norm_num)
    norm_num at ha hb ⊢
    rw [ha]
    norm_num
    rw [hb]
  · have ha : fl64 (97 / 20) = 5460614548186726 / 2 ^ 50 :=
      fl64_eval _ 50 5460614548186726 (by norm_num) (by norm_num) (by rw [abs_lt]; norm_num)
    have hb : fl64 (5460614548186726 / 2 ^ 50 * 10) = 6825768185233408 / 2 ^ 47 :=
      fl64_eval_tie _ 47 6825768185233407 6825768185233408 (by norm_num) (by norm_num) (by norm_num) (by decide)
    norm_num at ha hb ⊢
    rw [ha]
    norm_num
    rw [hb]
  · have ha : fl64 (99 / 20) = 5573204538870989 / 2 ^ 50 :=
      fl64_eval _ 50 5573204538870989 (by norm_num) (by norm_num) (by rw [abs_lt]; norm_num)
    have hb : fl64 (5573204538870989 / 2 ^ 50 * 10) = 6966505673588736 / 2 ^ 47 :=
      fl64_eval _ 47 6966505673588736 (by norm_num) (by norm_num) (by rw [abs_lt]; norm_num)
    norm_num at ha hb ⊢
    rw [ha]
    norm_num
    rw [hb]

theorem mathRound_eq (y : ℚ) (K : ℤ) (hy : 0 ≤ y) (h1 : (K : ℚ) ≤ y + 1 / 2)
    (h2 : y + 1 / 2 < K + 1) : mathRound y = K := by
  unfold mathRound
  rw [if_pos hy]
  have : ⌊y + 1 / 2⌋ = K := by
    rw [Int.floor_eq_iff]
    exact ⟨h1, h2⟩
  rw [this]

/-- The two `float64` operations before `math.Round` do not change what it
returns: for `n` half-step ratings with sum `m / 2`, rounding the computed
`avg * 10` gives the same integer as rounding ten times the exact mean. -/
theorem mathRound_avg (m n : ℕ) (hn : 0 < n) (hn2 : n < 2 ^ 40) (hm1 : n ≤ m)
    (hm2 : m ≤ 10 * n) :
    mathRound (fl64 (fl64 ((m : ℚ) / 2 / n) * 10)) = mathRound ((m : ℚ) / 2 / n * 10) := by
  have hnq : (0 : ℚ) < n := by exact_mod_cast hn
  have hn2q : (n : ℚ) < 2 ^ 40 := by exact_mod_cast hn2
  have hm1q : (n : ℚ) ≤ m := by exact_mod_cast hm1
  have hm2q : (m : ℚ) ≤ 10 * n := by exact_mod_cast hm2
  have hc1 : (1 : ℚ) / 2 ≤ (m : ℚ) / 2 / n := by
    rw [le_div_iff₀ hnq]
    linarith
  have hc2 : (m : ℚ) / 2 / n ≤ 5 := by
    rw [div_le_iff₀ hnq]
    linarith
  have hx : (m : ℚ) / 2 / n * 10 = 5 * m / n := by
    field_simp
    ring
  -- the integer the exact value rounds to
  obtain ⟨K, hK⟩ : ∃ K : ℤ, K = ⌊(m : ℚ) / 2 / n * 10 + 1 / 2⌋ := ⟨_, rfl⟩
  have hK1 : (K : ℚ) ≤ (m : ℚ) / 2 / n * 10 + 1 / 2 := by
    rw [hK]
    exact Int.floor_le _
  have hK2 : (m : ℚ) / 2 / n * 10 + 1 / 2 < K + 1 := by
    rw [hK]
    exact Int.lt_floor_add_one _
  have hexact : mathRound ((m : ℚ) / 2 / n * 10) = K :=
    mathRound_eq _ K (by linarith) hK1 hK2
  rw [hexact]
  by_cases htie : (K : ℚ) = (m : ℚ) / 2 / n * 10 + 1 / 2
  · -- ten times the mean is the half-integer `K - 1/2`
    have hKlo : (5 : ℚ) < K := by linarith
    have hKhi : (K : ℚ) ≤ 50 + 1 / 2 := by linarith
    have hKlo' : (6 : ℤ) ≤ K := by
      have : (5 : ℤ) < K := by exact_mod_cast hKlo
      omega
    have hKhi' : K ≤ (50 : ℤ) := by
      have : (K : ℚ) < 51 := by linarith
      have : K < (51 : ℤ) := by exact_mod_cast this
      omega
    obtain ⟨k, hk⟩ : ∃ k : ℕ, (k : ℤ) = K := ⟨K.toNat, Int.toNat_of_nonneg (by omega)⟩
    have hkq : (k : ℚ) = K := by exact_mod_cast hk
    have hc : (m : ℚ) / 2 / n = (2 * (k : ℚ) - 1) / 20 := by
      rw [hkq]
      linarith
    rw [hc, fl64_tie k (by omega) (by omega), hkq]
    exact mathRound_eq _ K (by linarith) (by linarith) (by linarith)
  · -- otherwise the exact value keeps a distance of `1 / (2 n)` from both ends
    have hgap1 : (K : ℚ) + 1 / (2 * n) ≤ (m : ℚ) / 2 / n * 10 + 1 / 2 := by
      have hlt : (K : ℚ) < (m : ℚ) / 2 / n * 10 + 1 / 2 := lt_of_le_of_ne hK1 htie
      rw [hx] at hlt ⊢
      have h1 : (K : ℚ) * (2 * n) < 10 * m + n := by
        have := mul_lt_mul_of_pos_right hlt (by positivity : (0 : ℚ) < 2 * n)
        have he : (5 * (m : ℚ) / n + 1 / 2) * (2 * n) = 10 * m + n := by
          field_simp
          ring
        rw [he] at this
        exact this
      have h2 : K * (2 * n) < 10 * m + n := by exact_mod_cast h1
      have h3 : K * (2 * n) + 1 ≤ 10 * m + n := by omega
      have h4 : (K : ℚ) * (2 * n) + 1 ≤ 10 * m + n := by exact_mod_cast h3
      rw [show (K : ℚ) + 1 / (2 * n) = ((K : ℚ) * (2 * n) + 1) / (2 * n) by field_simp,
        show 5 * (m : ℚ) / n + 1 / 2 = (10 * m + n) / (2 * n) by field_simp; ring]
      exact div_le_div_of_nonneg_right h4 (by positivity)
    have hgap2 : (m : ℚ) / 2 / n * 10 + 1 / 2 + 1 / (2 * n) ≤ K + 1 := by
      rw [hx] at hK2 ⊢
      have h1 : (10 : ℚ) * m + n < (K + 1) * (2 * n) := by
        have := mul_lt_mul_of_pos_right hK2 (by positivity : (0 : ℚ) < 2 * n)
        have he : (5 * (m : ℚ) / n + 1 / 2) * (2 * n) = 10 * m + n := by
          field_simp
          ring
        rw [he] at this
        exact this
      have h2 : (10 : ℤ) * m + n < (K + 1) * (2 * n) := by exact_mod_cast h1
      have h3 : (10 : ℤ) * m + n + 1 ≤ (K + 1) * (2 * n) := by omega
      have h4 : (10 : ℚ) * m + n + 1 ≤ (K + 1) * (2 * n) := by exact_mod_cast h3
      rw [show 5 * (m : ℚ) / n + 1 / 2 + 1 / (2 * n) = (10 * m + n + 1) / (2 * n) by
          field_simp; ring,
        show (K : ℚ) + 1 = ((K + 1) * (2 * n)) / (2 * n) by field_simp]
      exact div_le_div_of_nonneg_right h4 (by positivity)
    -- the computed value is close to the exact one
    have hcpos : (0 : ℚ) < (m : ℚ) / 2 / n := by linarith
    have ha := fl64_error _ hcpos
    rw [abs_le] at ha
    have hapos : (0 : ℚ) < fl64 ((m : ℚ) / 2 / n) := by
      have : (m : ℚ) / 2 / n / 2 ^ 53 ≤ (m : ℚ) / 2 / n / 2 := by
        apply div_le_div_of_nonneg_left hcpos.le (by norm_num) (by norm_num)
      linarith
    have hb := fl64_error (fl64 ((m : ℚ) / 2 / n) * 10) (by positivity)
    rw [abs_le] at hb
    have hsmall : (1 : ℚ) / 2 ^ 41 < 1 / (2 * n) := by
      apply div_lt_div_of_pos_left (by norm_num) (by positivity)
      calc (2 : ℚ) * n < 2 * 2 ^ 40 := by linarith
        _ = 2 ^ 41 := by norm_num
    have hcb : (m : ℚ) / 2 / n / 2 ^ 53 ≤ 5 / 2 ^ 53 :=
      div_le_div_of_nonneg_right hc2 (by positivity)
    have hab : fl64 ((m : ℚ) / 2 / n) ≤ 6 := by
      have : (5 : ℚ) / 2 ^ 53 ≤ 1 := by norm_num
      linarith
    have hbb : fl64 ((m : ℚ) / 2 / n) * 10 / 2 ^ 53 ≤ 60 / 2 ^ 53 :=
      div_le_div_of_nonneg_right (by linarith) (by positivity)
    have hnum : (60 : ℚ) / 2 ^ 53 + 10 * (5 / 2 ^ 53) < 1 / 2 ^ 41 := by norm_num
    apply mathRound_eq
    · linarith
    · linarith
    · linarith

/-! ## The rating aggregate -/

/-- Accumulating half-step ratings in `float64` is exact. -/
theorem foldl_fl64_half_steps (xs : List ℚ) (hxs : ∀ x ∈ xs, ∃ k : ℕ, 1 ≤ k ∧ k ≤ 10 ∧ x = k / 2) :
    ∀ a : ℕ, a + 10 * xs.length < 2 ^ 53 →
      xs.foldl (fun acc x => fl64 (acc + x)) ((a : ℚ) / 2) = (a : ℚ) / 2 + xs.sum := by
  induction xs with
  | nil =>
    intro a _
    simp
  | cons x xs ih =>
    intro a ha
    obtain ⟨k, hk1, hk2, rfl⟩ := hxs x (List.mem_cons_self _ _)
    rw [List.length_cons] at ha
    have hstep : fl64 ((a : ℚ) / 2 + (k : ℚ) / 2) = ((a + k : ℕ) : ℚ) / 2 := by
      have he : (a : ℚ) / 2 + (k : ℚ) / 2 = (((a + k : ℕ) : ℤ) : ℚ) / 2 := by
        push_cast
        ring
      rw [he, fl64_half_integer ((a + k : ℕ) : ℤ) (by omega)]
      · push_cast
        ring
      · have h1 : a + k < 2 ^ 53 := by omega
        have h2 : ((a + k : ℕ) : ℚ) < 2 ^ 53 := by exact_mod_cast h1
        push_cast at h2 ⊢
        linarith
    rw [List.foldl_cons, hstep, ih (fun y hy => hxs y (List.mem_cons_of_mem _ hy)) (a + k)
      (by omega), List.sum_cons]
    push_cast
    ring

/-- The sum of `n` half-step ratings is `m / 2` for an `m` between `n` and `10 n`. -/
theorem sum_half_steps (xs : List ℚ) (hxs : ∀ x ∈ xs, ∃ k : ℕ, 1 ≤ k ∧ k ≤ 10 ∧ x = k / 2) :
    ∃ m : ℕ, xs.sum = (m : ℚ) / 2 ∧ xs.length ≤ m ∧ m ≤ 10 * xs.length := by
  induction xs with
  | nil => exact ⟨0, by simp, by simp, by simp⟩
  | cons x xs ih =>
    obtain ⟨k, hk1, hk2, rfl⟩ := hxs x (List.mem_cons_self _ _)
    obtain ⟨m, hm, hm1, hm2⟩ := ih (fun y hy => hxs y (List.mem_cons_of_mem _ hy))
    refine ⟨k + m, ?_, ?_, ?_⟩
    · rw [List.sum_cons, hm]
      push_cast
      ring
    · rw [List.length_cons]
      omega
    · rw [List.length_cons]
      omega

/-- SQLite's average of `n` half-step ratings, then Go's `math.Round(avg*10)/10`,
is the `float64` nearest to the exact mean rounded to one decimal place, halves
away from zero. -/
theorem round_sqlAvg (xs : List ℚ) (hxs : ∀ x ∈ xs, ∃ k : ℕ, 1 ≤ k ∧ k ≤ 10 ∧ x = k / 2)
    (hne : xs ≠ []) (hlen : xs.length < 2 ^ 40) :
    fl64 (mathRound (fl64 ((sqlAvg xs).getD 0 * 10)) / 10) =
      fl64 (mathRound (xs.sum / xs.length * 10) / 10) := by
  obtain ⟨m, hm, hm1, hm2⟩ := sum_half_steps xs hxs
  have hpos : 0 < xs.length := List.length_pos.2 hne
  have hfold : xs.foldl (fun acc x => fl64 (acc + x)) 0 = xs.sum := by
    have := foldl_fl64_half_steps xs hxs 0 (by
      have : 10 * xs.length < 10 * 2 ^ 40 := by omega
      omega)
    simpa using this
  unfold sqlAvg
  rw [if_neg hne, Option.getD_some, hfold, hm, mathRound_avg m xs.length hpos hlen hm1 hm2]

/-- C12: with a present title and working queries, `getRatingAggregate` answers
404 when no movie has the title, and for the movie (of a well-formed store) that
has it: 404 when it has no rating row; otherwise, its `n` rating rows being half
steps (`n` below `2 ^ 40`), 200 with count `n` and average the `float64` nearest
to `round(mean * 10) / 10`, where `mean` is the exact arithmetic mean and
`round` rounds to the nearest integer, halves away from zero. -/
theorem getRatingAggregate_spec (db : DB) (title : String) (fl : Faults)
    (ht : (goBytes title).length ≠ 0) (hq1 : fl.query1 = false) (hq2 : fl.query2 = false) :
    ((∀ m ∈ db.movies, m.title ≠ title) →
      getRatingAggregate db title fl = ⟨404, .error "NOT_FOUND" "movie not found", none⟩) ∧
    (∀ m ∈ db.movies, m.title = title → WellFormed db →
      ((db.ratings.filter fun r => r.movie_id = m.id) = [] →
        getRatingAggregate db title fl = ⟨404, .error "NOT_FOUND" "no ratings", none⟩) ∧
      ((db.ratings.filter fun r => r.movie_id = m.id) ≠ [] →
        (db.ratings.filter fun r => r.movie_id = m.id).length < 2 ^ 40 →
        (∀ r ∈ db.ratings.filter fun r => r.movie_id = m.id,
          ∃ k : ℕ, 1 ≤ k ∧ k ≤ 10 ∧ r.rating = k / 2) →
        getRatingAggregate db title fl =
          ⟨200, .aggregate
            ⟨fl64 (mathRound
                (((db.ratings.filter fun r => r.movie_id = m.id).map (·.rating)).sum /
                  (db.ratings.filter fun r => r.movie_id = m.id).length * 10) / 10),
              (db.ratings.filter fun r => r.movie_id = m.id).length⟩, none⟩)) := by
  constructor
  · intro hno
    have hsel := (selectMovieIdByTitle_eq_none_iff db title).2 hno
    unfold getRatingAggregate
    rw [if_neg ht]
    simp only [hq1, Bool.false_eq_true, if_false, hsel]
  · intro m hm hmt hwf
    have hsel : selectMovieIdByTitle db title = some m.id := by
      rw [← hmt]
      exact selectMovieIdByTitle_of_mem db m hwf hm
    constructor
    · intro hnil
      unfold getRatingAggregate
      rw [if_neg ht]
      simp only [hq1, hq2, Bool.false_eq_true, if_false, hsel, hnil]
      simp
    · intro hne hlen hhalf
      have hxs : ∀ x : ℚ, x ∈ (db.ratings.filter fun r => r.movie_id = m.id).map (·.rating) →
          ∃ k : ℕ, 1 ≤ k ∧ k ≤ 10 ∧ x = k / 2 := by
        intro x hx
        rw [List.mem_map] at hx
        obtain ⟨r, hr, rfl⟩ := hx
        exact hhalf r hr
      have hround := round_sqlAvg ((db.ratings.filter fun r => r.movie_id = m.id).map (·.rating))
        hxs (by simpa using hne) (by simpa using hlen)
      rw [List.length_map] at hround
      have hcount : ((db.ratings.filter fun r => r.movie_id = m.id).length : Int) ≠ 0 := by
        have := List.length_pos.2 hne
        omega
      unfold getRatingAggregate
      rw [if_neg ht]
      simp only [hq1, hq2, Bool.false_eq_true, if_false, hsel]
      rw [if_neg hcount, hround]

/-- Witness for C12: the ratings 1.0, 2.0 and 2.0 give count 3 and the average
`7656119366529843 / 2 ^ 52`, the `float64` written 1.7; an unknown title and a
movie without ratings give 404. -/
theorem getRatingAggregate_spec_witness :
    WellFormed ratedStore ∧
    getRatingAggregate ratedStore "Alpha" noFaults =
      ⟨200, .aggregate ⟨7656119366529843 / 4503599627370496, 3⟩, none⟩ ∧
    fl64 (17 / 10) = 7656119366529843 / 4503599627370496 ∧
    getRatingAggregate ratedStore "Beta" noFaults =
      ⟨404, .error "NOT_FOUND" "movie not found", none⟩ ∧
    getRatingAggregate oneMovie "Alpha" noFaults =
      ⟨404, .error "NOT_FOUND" "no ratings", none⟩ := by
  have hrows : (ratedStore.ratings.filter fun r => r.movie_id = (sampleMovieRow "a" "Alpha").id)
      = ratedStore.ratings := by
    simp [ratedStore, sampleMovieRow]
  have hfl : fl64 (17 / 10) = 7656119366529843 / 4503599627370496 := by
    rw [fl64_eval (17 / 10) 52 7656119366529843 (by norm_num) (by norm_num)
      (by rw [abs_lt]; norm_num)]
    norm_num
  have h1 := ((getRatingAggregate_spec ratedStore "Alpha" noFaults (by decide) rfl rfl).2
    (sampleMovieRow "a" "Alpha") (by decide) rfl wellFormed_ratedStore).2
  rw [hrows] at h1
  have h2 := h1 (by simp [ratedStore]) (by simp [ratedStore]) (by
    intro r hr
    simp only [ratedStore, List.mem_cons, List.mem_singleton, List.not_mem_nil, or_false] at hr
    rcases hr with rfl | rfl | rfl
    · exact ⟨2, by norm_num, by norm_num, by norm_num⟩
    · exact ⟨4, by norm_num, by norm_num, by norm_num⟩
    · exact ⟨4, by norm_num, by norm_num, by norm_num⟩)
  have hmean : mathRound ((ratedStore.ratings.map (·.rating)).sum / ratedStore.ratings.length * 10)
      = 17 := by
    have : (ratedStore.ratings.map (·.rating)).sum / ratedStore.ratings.length * 10
        = (50 : ℚ) / 3 := by
      simp [ratedStore]
      norm_num
    rw [this]
    exact mathRound_eq _ 17 (by norm_num) (by norm_num) (by norm_num)
  refine ⟨wellFormed_ratedStore, ?_, hfl, ?_, ?_⟩
  · rw [h2, hmean, hfl]
    rfl
  · exact (getRatingAggregate_spec ratedStore "Beta" noFaults (by decide) rfl rfl).1 (by decide)
  · exact ((getRatingAggregate_spec oneMovie "Alpha" noFaults (by decide) rfl rfl).2
      (sampleMovieRow "a" "Alpha") (by decide) rfl (by simp [WellFormed, oneMovie])).1 (by decide)

/-! ## Filter semantics of the listing -/

/-- Evaluation of the listing conditions on texts with U+0000 and on a `q` with
wildcards: a pattern ends at its first U+0000 (`%` alone selects every title),
a title and a release date are read up to their first U+0000, and `_` and `%`
in `q` act as wildcards. -/
theorem sqlLike_substr1_examples :
    sqlLike ("%" ++ String.mk [Char.ofNat 0, 'Z'] ++ "%").data "Alpha".data = true ∧
    sqlLike ("%" ++ "B" ++ "%").data ['A', Char.ofNat 0, 'B'] = false ∧
    substr1 (String.mk ['2', '0', Char.ofNat 0, '0', '-', '0', '1', '-', '0', '1']) 4 = "20" ∧
    joinRow (sampleMovieRow "a" "Alpha") none ∈ matchingRows oneMovie "A_p%" "" "" "" := by
  decide

/-- Evaluation on a stored title with a leading and a trailing blank:
`createMovie` stores the title as given, `submitRating` looks up the trimmed
title, so a rating submitted under the stored title finds no movie. -/
theorem submitRating_stored_padded_title :
    createMovie emptyDB none paddedPayload "a" "t1" noFaults =
      (paddedStore, ⟨201, .movie ⟨"a", " Alpha ", "2020-01-01", "Drama", none, none, none, none⟩,
        some "/movies/ Alpha "⟩) ∧
    (submitRating paddedStore " Alpha " "rater-1" 3 "t2" noFaults).2.status = 404 := by
  refine ⟨by decide, ?_⟩
  rw [(submitRating_checked paddedStore " Alpha " "rater-1" 3 "t2" noFaults (by decide)
    (by decide) ⟨6, by norm_num, by norm_num, by norm_num⟩ rfl).1 (by decide)]

/-- C15 (counterexample): a rating submitted for `Alpha ` (with a trailing blank)
is accepted and answered 201, although no stored movie has exactly that title:
the lookup is by the trimmed title. -/
theorem submitRating_trims_title :
    (∀ m ∈ oneMovie.movies, m.title ≠ "Alpha ") ∧
    (submitRating oneMovie "Alpha " "rater-1" 3 "t2" noFaults).2.status = 201 := by
  refine ⟨by decide, ?_⟩
  rw [submitRating_found oneMovie "Alpha " "rater-1" 3 "t2" "a" (by decide) (by decide)
    (by norm_num) (by norm_num) (by norm_num [mathMod]) (by decide)]
  decide

/-- C15 (amended): in a store whose titles have no leading or trailing white
space, for a present title and rater id, a valid rating and a working lookup
query, `submitRating` answers 404 exactly when no stored movie has the title
obtained by trimming white space from the given title; and when a movie of the
(well-formed) store has that trimmed title and no store call fails, the answer
is 200 or 201 and afterwards that movie has exactly one rating row of the rater,
holding the submitted rating. -/
theorem submitRating_lookup (db : DB) (title raterID : String) (rating : ℚ) (now : String)
    (fl : Faults) (_htrim : ∀ m ∈ db.movies, TrimSpace m.title = m.title)
    (ht : (goBytes title).length ≠ 0) (hr : raterID ≠ "")
    (hv : ∃ k : ℕ, 1 ≤ k ∧ k ≤ 10 ∧ rating = k / 2) (hq : fl.query1 = false) :
    ((submitRating db title raterID rating now fl).2.status = 404 ↔
      ∀ m ∈ db.movies, m.title ≠ TrimSpace title) ∧
    (∀ m ∈ db.movies, m.title = TrimSpace title → WellFormed db →
      ((submitRating db title raterID rating now noFaults).2.status = 200 ∨
        (submitRating db title raterID rating now noFaults).2.status = 201) ∧
      (((submitRating db title raterID rating now noFaults).1.ratings.filter
        fun x => x.movie_id = m.id ∧ x.rater_id = raterID).map (·.rating)) = [rating]) := by
  obtain ⟨hnone, hsome⟩ := submitRating_checked db title raterID rating now fl ht hr hv hq
  constructor
  · rw [← selectMovieIdByTitle_eq_none_iff]
    constructor
    · intro h
      by_contra hc
      exact hsome hc h
    · intro h
      rw [hnone h]
  · intro m hm hmt hwf
    have hsel : selectMovieIdByTitle db (TrimSpace title) = some m.id := by
      rw [← hmt]
      exact selectMovieIdByTitle_of_mem db m hwf hm
    have hc := (rating_check_iff rating).2 hv
    simp only [not_or, not_lt, not_not, gt_iff_lt] at hc
    rw [submitRating_found db title raterID rating now m.id ht hr hc.1 hc.2.1 hc.2.2 hsel]
    have hle := ratings_key_count_le_one db.ratings m.id raterID hwf.2.2.2.2.1
    constructor
    · simp only
      split
      · exact Or.inl rfl
      · exact Or.inr rfl
    · simp only
      rw [ratings_after_upsert, max_eq_left hle]
      rfl

/-- Witness for C15 (amended): `Alpha` is rated by submitting ` Alpha ` padded
with blanks. -/
theorem submitRating_lookup_witness :
    (∀ m ∈ oneMovie.movies, TrimSpace m.title = m.title) ∧
    WellFormed oneMovie ∧
    ((submitRating oneMovie " Alpha " "rater-1" 3 "t2" noFaults).2.status = 404 ↔
      ∀ m ∈ oneMovie.movies, m.title ≠ TrimSpace " Alpha ") ∧
    (∀ m ∈ oneMovie.movies, m.title = TrimSpace " Alpha " → WellFormed oneMovie →
      ((submitRating oneMovie " Alpha " "rater-1" 3 "t2" noFaults).2.status = 200 ∨
        (submitRating oneMovie " Alpha " "rater-1" 3 "t2" noFaults).2.status = 201) ∧
      (((submitRating oneMovie " Alpha " "rater-1" 3 "t2" noFaults).1.ratings.filter
        fun x => x.movie_id = m.id ∧ x.rater_id = "rater-1").map (·.rating)) = [3]) :=
  ⟨by decide, by simp [WellFormed, oneMovie],
    submitRating_lookup oneMovie " Alpha " "rater-1" 3 "t2" noFaults (by decide) (by decide)
      (by decide) ⟨6, by norm_num, by norm_num, by norm_num⟩ rfl⟩

end RobinCamp
